import Mathlib

/-!
Verification of the Aeron C client/driver sources against their
natural-language specification.

The definitions below are a shallow embedding of the C sources:

* `aeron_publication_create`, `aeron_publication_offer`,
  `aeron_publication_offerv`, `aeron_publication_try_claim` from
  `aeron-client/src/main/c/aeron_publication.c`;
* `aeron_ipv4_multicast_control_address`, `aeron_ipv6_multicast_control_address`,
  `aeron_multicast_control_address`, `aeron_uri_udp_canonicalise`,
  `aeron_udp_channel_parse` from `aeron-driver/src/main/c/media/aeron_udp_channel.c`;
* `aeron_format_to_hex`, `aeron_tokenise` from
  `aeron-client/src/main/c/util/aeron_strutil.c`.

Helper routines the publication code calls (log-buffer accessors, the term
appender, `aeron_publication_new_position`, `aeron_publication_back_pressure_status`,
the `AERON_PUBLICATION_*` sentinels) live in headers that are not part of the
sampled sources; those are modelled from the specification, and each such
definition says so in its doc comment.

Machine integers are modelled as `Int`/`Nat` with explicit reductions modulo
powers of two where the C code truncates.
-/

namespace Aeron

/-- Reduction of an unbounded integer to the value of the C cast `(int32_t)x`:
two's-complement wrap-around into `[-2^31, 2^31)`. -/
def toInt32 (x : Int) : Int := (x + 2 ^ 31) % 2 ^ 32 - 2 ^ 31

/-- Largest `int32_t` value. -/
def int32Max : Int := 2 ^ 31 - 1

/-- Smallest `int32_t` value. -/
def int32Min : Int := -(2 ^ 31)

/-- `AERON_ALIGN(value, alignment)` for a power-of-two alignment: round
`value` up to the next multiple of `alignment`. -/
def alignUp (value alignment : Nat) : Nat := (value + alignment - 1) / alignment * alignment

/-- `AERON_DATA_HEADER_LENGTH`: the data frame header is 32 bytes
(§3 Frames: `4+1+1+2+4+4+4+4+8`). -/
def dataHeaderLength : Nat := 32

/-- `AERON_LOGBUFFER_FRAME_ALIGNMENT`: frames are aligned to 32 bytes (§3). -/
def frameAlignment : Nat := 32

/-- Modelled from the spec: the `AERON_PUBLICATION_*` sentinels declared in
`aeronc.h` (missing from the sampled sources). §7 requires them to be negative
and distinguishable from positive positions; the concrete values mirror the
header's `-1 .. -6`. `NOT_CONNECTED` sentinel. -/
def AERON_PUBLICATION_NOT_CONNECTED : Int := -1

/-- Modelled from the spec: `BACK_PRESSURED` sentinel from `aeronc.h`. -/
def AERON_PUBLICATION_BACK_PRESSURED : Int := -2

/-- Modelled from the spec: `ADMIN_ACTION` sentinel from `aeronc.h`. -/
def AERON_PUBLICATION_ADMIN_ACTION : Int := -3

/-- Modelled from the spec: `CLOSED` sentinel from `aeronc.h`. -/
def AERON_PUBLICATION_CLOSED : Int := -4

/-- Modelled from the spec: `MAX_POSITION_EXCEEDED` sentinel from `aeronc.h`. -/
def AERON_PUBLICATION_MAX_POSITION_EXCEEDED : Int := -5

/-- Modelled from the spec: the generic error sentinel `AERON_PUBLICATION_ERROR`
from `aeronc.h`, returned for invalid arguments and out-of-range lengths. -/
def AERON_PUBLICATION_ERROR : Int := -6

/-- The five publication sentinels named by §7 of the spec. -/
def fiveSentinels : List Int :=
  [AERON_PUBLICATION_BACK_PRESSURED, AERON_PUBLICATION_NOT_CONNECTED,
   AERON_PUBLICATION_ADMIN_ACTION, AERON_PUBLICATION_CLOSED,
   AERON_PUBLICATION_MAX_POSITION_EXCEEDED]

/-- One frame record of a term buffer, as much of it as the embedding needs:
its term offset, its frame length, its fragmentation flags and whether it is a
padding frame. -/
structure Frame where
  termOffset : Int
  frameLength : Int
  termId : Int
  flagsBegin : Bool
  flagsEnd : Bool
  isPadding : Bool
  deriving DecidableEq, Repr

/-- The three per-term tail counters of the log metadata, each a raw 64-bit
value packing `(termId << 32) | tailOffset` (§3 Term tail counter). -/
structure TailCounters where
  tc0 : Nat
  tc1 : Nat
  tc2 : Nat
  deriving DecidableEq, Repr

/-- Read the tail counter selected by an index in `0..2`. -/
def TailCounters.get (t : TailCounters) (i : Nat) : Nat :=
  match i with
  | 0 => t.tc0
  | 1 => t.tc1
  | _ => t.tc2

/-- Write the tail counter selected by an index in `0..2`. -/
def TailCounters.set (t : TailCounters) (i : Nat) (v : Nat) : TailCounters :=
  match i with
  | 0 => { t with tc0 := v }
  | 1 => { t with tc1 := v }
  | _ => { t with tc2 := v }

/-- The three term buffers, each modelled as the list of frames appended
to it (§3 Log buffer). -/
structure TermBuffers where
  tb0 : List Frame
  tb1 : List Frame
  tb2 : List Frame
  deriving DecidableEq, Repr

/-- Read the term buffer selected by an index in `0..2`. -/
def TermBuffers.get (t : TermBuffers) (i : Nat) : List Frame :=
  match i with
  | 0 => t.tb0
  | 1 => t.tb1
  | _ => t.tb2

/-- Write the term buffer selected by an index in `0..2`. -/
def TermBuffers.set (t : TermBuffers) (i : Nat) (v : List Frame) : TermBuffers :=
  match i with
  | 0 => { t with tb0 := v }
  | 1 => { t with tb1 := v }
  | _ => { t with tb2 := v }

/-- The shared log buffer: metadata fields (§3 Log buffer) plus the three
term buffers. `tails i` holds the raw 64-bit tail counter of term `i`. -/
structure LogBufferState where
  termLength : Nat
  mtuLength : Nat
  initialTermId : Int
  activeTermCount : Int
  tails : TailCounters
  isConnected : Bool
  termBuffers : TermBuffers
  deriving DecidableEq, Repr

/-- Modelled from the spec: `aeron_logbuffer_active_term_count` reads the
`activeTermCount` metadata field (§3). -/
def aeron_logbuffer_active_term_count (log : LogBufferState) : Int :=
  log.activeTermCount

/-- Modelled from the spec: `aeron_logbuffer_index_by_term_count` selects the
active partition as `activeTermCount mod 3` (§3 Invariants). -/
def aeron_logbuffer_index_by_term_count (termCount : Int) : Nat :=
  (termCount % 3).toNat

/-- Modelled from the spec: `aeron_term_appender_raw_tail_volatile` reads the
raw 64-bit tail counter of one term. -/
def aeron_term_appender_raw_tail_volatile (log : LogBufferState) (i : Nat) : Nat :=
  log.tails.get i

/-- Modelled from the spec: `aeron_logbuffer_term_id` extracts the high 32 bits
of a raw tail, `(int32_t)(raw_tail >> 32)` (§3 Term tail counter). -/
def aeron_logbuffer_term_id (rawTail : Nat) : Int :=
  toInt32 ((rawTail / 2 ^ 32 : Nat) : Int)

/-- The tail offset packed in the low 32 bits of a raw tail. -/
def tailOffsetOf (rawTail : Nat) : Nat := rawTail % 2 ^ 32

/-- Modelled from the spec: `aeron_logbuffer_compute_term_begin_position`
inverts the position decomposition of §3:
`position = ((termId - initialTermId) << positionBitsToShift) + termOffset`,
so a term begins at `(termId - initialTermId) << positionBitsToShift`. -/
def aeron_logbuffer_compute_term_begin_position
    (termId : Int) (positionBitsToShift : Nat) (initialTermId : Int) : Int :=
  (termId - initialTermId) * 2 ^ positionBitsToShift

/-- Modelled from the spec: `aeron_logbuffer_rotate_log` (§4.1 Rotation):
pre-clean the next-next term, set the tail counter of the next term to
`(termId + 1, 0)`, and publish `activeTermCount = termCount + 1`. -/
def aeron_logbuffer_rotate_log (log : LogBufferState) (termCount termId : Int) : LogBufferState :=
  let nextIndex := aeron_logbuffer_index_by_term_count (termCount + 1)
  let nextNextIndex := aeron_logbuffer_index_by_term_count (termCount + 2)
  let nextRawTail := ((toInt32 (termId + 1)) % 2 ^ 32).toNat * 2 ^ 32
  { log with
      termBuffers := log.termBuffers.set nextNextIndex []
      tails := log.tails.set nextIndex nextRawTail
      activeTermCount := termCount + 1 }

/-- Modelled from the spec: the term appender's `TRIPPED` sentinel — the
append would cross the term boundary and the caller must rotate (§4.1
Return codes). -/
def AERON_TERM_APPENDER_TRIPPED : Int := -1

/-- Modelled from the spec: unfragmented append (§4.1): atomically add
`alignedFrameLength` to the term tail counter; derive `termOffset` from the
previous value; if `termOffset + alignedFrameLength > termLength`, write a
padding frame from `termOffset` to end-of-term and return `TRIPPED`, else
write the frame and return the offset just past it. -/
def aeron_term_appender_append_unfragmented_message
    (log : LogBufferState) (index : Nat) (length : Nat) (termId : Int) :
    Int × LogBufferState :=
  let alignedFrameLength := alignUp (length + dataHeaderLength) frameAlignment
  let rawTail := aeron_term_appender_raw_tail_volatile log index
  let termOffset := tailOffsetOf rawTail
  let log1 := { log with tails := log.tails.set index (rawTail + alignedFrameLength) }
  if termOffset + alignedFrameLength > log.termLength then
    let padding : Frame :=
      { termOffset := (termOffset : Int), frameLength := (log.termLength : Int) - termOffset,
        termId := termId, flagsBegin := true, flagsEnd := true, isPadding := true }
    let log2 := { log1 with
      termBuffers := log1.termBuffers.set index (log1.termBuffers.get index ++ [padding]) }
    (AERON_TERM_APPENDER_TRIPPED, log2)
  else
    let frame : Frame :=
      { termOffset := (termOffset : Int), frameLength := ((length + dataHeaderLength : Nat) : Int),
        termId := termId, flagsBegin := true, flagsEnd := true, isPadding := false }
    let log2 := { log1 with
      termBuffers := log1.termBuffers.set index (log1.termBuffers.get index ++ [frame]) }
    (((termOffset + alignedFrameLength : Nat) : Int), log2)

/-- The fragments of a message of `length` bytes split at `maxPayloadLength`
(§3 Fragmentation flags): only the first carries `BEGIN`, only the last `END`. -/
def fragmentFrames (termOffset length maxPayloadLength : Nat) (termId : Int) : List Frame :=
  let numMaxPayloads := length / maxPayloadLength
  let remainingPayload := length % maxPayloadLength
  let numFrames := numMaxPayloads + (if remainingPayload > 0 then 1 else 0)
  (List.range numFrames).map fun k =>
    let payload := if k < numMaxPayloads then maxPayloadLength else remainingPayload
    { termOffset := ((termOffset + k * alignUp (maxPayloadLength + dataHeaderLength) frameAlignment : Nat) : Int),
      frameLength := ((payload + dataHeaderLength : Nat) : Int),
      termId := termId, flagsBegin := k = 0, flagsEnd := k = numFrames - 1,
      isPadding := false }

/-- Modelled from the spec: fragmented append (§4.1): compute the total
aligned length across the MTU-sized fragments, reserve that range atomically
on the tail, and either emit all fragment frames or — if the reservation would
cross the term end — a padding frame and `TRIPPED`. -/
def aeron_term_appender_append_fragmented_message
    (log : LogBufferState) (index : Nat) (length maxPayloadLength : Nat) (termId : Int) :
    Int × LogBufferState :=
  let numMaxPayloads := length / maxPayloadLength
  let remainingPayload := length % maxPayloadLength
  let lastFrameLength :=
    if remainingPayload > 0 then alignUp (remainingPayload + dataHeaderLength) frameAlignment else 0
  let requiredLength :=
    numMaxPayloads * alignUp (maxPayloadLength + dataHeaderLength) frameAlignment + lastFrameLength
  let rawTail := aeron_term_appender_raw_tail_volatile log index
  let termOffset := tailOffsetOf rawTail
  let log1 := { log with tails := log.tails.set index (rawTail + requiredLength) }
  if termOffset + requiredLength > log.termLength then
    let padding : Frame :=
      { termOffset := (termOffset : Int), frameLength := (log.termLength : Int) - termOffset,
        termId := termId, flagsBegin := true, flagsEnd := true, isPadding := true }
    let log2 := { log1 with
      termBuffers := log1.termBuffers.set index (log1.termBuffers.get index ++ [padding]) }
    (AERON_TERM_APPENDER_TRIPPED, log2)
  else
    let log2 := { log1 with
      termBuffers := log1.termBuffers.set index
        (log1.termBuffers.get index ++ fragmentFrames termOffset length maxPayloadLength termId) }
    (((termOffset + requiredLength : Nat) : Int), log2)

/-- Modelled from the spec: `aeron_term_appender_claim` (§4.1 claim): like an
unfragmented append, but the payload is written by the user afterwards; the
frame is recorded with its header only. -/
def aeron_term_appender_claim
    (log : LogBufferState) (index : Nat) (length : Nat) (termId : Int) :
    Int × LogBufferState :=
  aeron_term_appender_append_unfragmented_message log index length termId

/-- Modelled from the spec: `aeron_number_of_trailing_zeroes` of a 32-bit
value; `positionBitsToShift = log2(termLength)` for the power-of-two
`termLength` (§3 Positions). For 0 it yields 32. -/
def aeron_number_of_trailing_zeroes (v : Nat) : Nat :=
  (List.range 32).findIdx fun i => v / 2 ^ i % 2 = 1

/-- Modelled from the spec: `aeron_frame_compute_max_message_length`:
`maxMessageLength = min(termLength / 8, 16 MiB)` (§3 Fragmentation flags). -/
def aeron_frame_compute_max_message_length (termLength : Nat) : Nat :=
  min (termLength / 8) (16 * 1024 * 1024)

/-- The client-side publication record: the fields `aeron_publication_create`
derives from the log metadata, plus its identity and closed flag. -/
structure Publication where
  streamId : Int
  sessionId : Int
  isClosed : Bool
  maxPossiblePosition : Int
  maxPayloadLength : Nat
  maxMessageLength : Nat
  positionBitsToShift : Nat
  initialTermId : Int
  deriving DecidableEq, Repr

/-- `aeron_publication_create` from `aeron_publication.c`: on allocation
failure set `*publication` to `NULL` and return `-1`; otherwise fill in the
publication fields from the log metadata, store it into `*publication` — and
(as the source stands) still return `-1`. The pair models
`(return value, *publication)`; `allocOk` models whether `aeron_alloc`
succeeded. -/
def aeron_publication_create
    (allocOk : Bool) (streamId sessionId : Int) (log : LogBufferState) :
    Int × Option Publication :=
  if !allocOk then
    (-1, none)
  else
    let termLength := log.termLength
    let pub : Publication :=
      { streamId := streamId
        sessionId := sessionId
        isClosed := false
        maxPossiblePosition := (termLength : Int) * 2 ^ 31
        maxPayloadLength := log.mtuLength - dataHeaderLength
        maxMessageLength := aeron_frame_compute_max_message_length termLength
        positionBitsToShift := aeron_number_of_trailing_zeroes termLength
        initialTermId := log.initialTermId }
    (-1, some pub)

/-- The state a publication call reads and writes: the publication record, the
shared log buffer, and the position-limit counter (§4.1 Backpressure). -/
structure PubWorld where
  pub : Publication
  log : LogBufferState
  positionLimit : Int
  deriving DecidableEq, Repr

/-- Modelled from the spec: `aeron_publication_back_pressure_status`
(§4.1 Backpressure, §7): when the after-message position would pass
`maxPossiblePosition` return `MAX_POSITION_EXCEEDED`; otherwise
`BACK_PRESSURED` when the log is connected and `NOT_CONNECTED` when not. -/
def aeron_publication_back_pressure_status
    (w : PubWorld) (currentPosition : Int) (messageLength : Int) : Int :=
  if currentPosition + messageLength >= w.pub.maxPossiblePosition then
    AERON_PUBLICATION_MAX_POSITION_EXCEEDED
  else if w.log.isConnected then
    AERON_PUBLICATION_BACK_PRESSURED
  else
    AERON_PUBLICATION_NOT_CONNECTED

/-- Modelled from the spec: `aeron_publication_new_position` (§4.1): a
resulting offset `> 0` is the byte offset just past the appended frames, so
the new position is the term-begin position plus that offset; on `TRIPPED`,
either the log had hit `maxPossiblePosition` (`MAX_POSITION_EXCEEDED`) or the
caller rotates the log and returns `ADMIN_ACTION` for the client to retry
(§4.1 Rotation). -/
def aeron_publication_new_position
    (w : PubWorld) (termCount : Int) (termOffset : Int) (termId : Int)
    (position : Int) (resultingOffset : Int) (log : LogBufferState) :
    Int × LogBufferState :=
  if resultingOffset > 0 then
    (position + resultingOffset, log)
  else if position + termOffset > w.pub.maxPossiblePosition then
    (AERON_PUBLICATION_MAX_POSITION_EXCEEDED, log)
  else
    (AERON_PUBLICATION_ADMIN_ACTION, aeron_logbuffer_rotate_log log termCount termId)

/-- `aeron_publication_offer` from `aeron_publication.c`. `bufferIsNull`
models a `NULL` buffer argument (a `NULL` publication is not representable
here). The result pairs the returned `int64_t` with the world after the call. -/
def aeron_publication_offer (w : PubWorld) (bufferIsNull : Bool) (length : Nat) :
    Int × PubWorld :=
  if bufferIsNull then
    (AERON_PUBLICATION_ERROR, w)
  else if w.pub.isClosed then
    (AERON_PUBLICATION_CLOSED, w)
  else
    let limit := w.positionLimit
    let termCount := aeron_logbuffer_active_term_count w.log
    let index := aeron_logbuffer_index_by_term_count termCount
    let rawTail := aeron_term_appender_raw_tail_volatile w.log index
    let termOffset := tailOffsetOf rawTail
    let termId := aeron_logbuffer_term_id rawTail
    let position := aeron_logbuffer_compute_term_begin_position
      termId w.pub.positionBitsToShift w.pub.initialTermId
    if termCount ≠ termId - w.pub.initialTermId then
      (AERON_PUBLICATION_ADMIN_ACTION, w)
    else if position < limit then
      if length ≤ w.pub.maxPayloadLength then
        let r := aeron_term_appender_append_unfragmented_message w.log index length termId
        let np := aeron_publication_new_position w termCount termOffset termId position r.1 r.2
        (np.1, { w with log := np.2 })
      else if length > w.pub.maxMessageLength then
        (AERON_PUBLICATION_ERROR, w)
      else
        let r := aeron_term_appender_append_fragmented_message
          w.log index length w.pub.maxPayloadLength termId
        let np := aeron_publication_new_position w termCount termOffset termId position r.1 r.2
        (np.1, { w with log := np.2 })
    else
      (aeron_publication_back_pressure_status w position length, w)

/-- `aeron_publication_offerv` from `aeron_publication.c`: sum the vector's
lengths and proceed exactly as `offer` does, through the vectored appenders.
`iovIsNull` models a `NULL` `iov` argument; `iov` carries the lengths of the
vector entries. -/
def aeron_publication_offerv (w : PubWorld) (iovIsNull : Bool) (iov : List Nat) :
    Int × PubWorld :=
  if iovIsNull then
    (AERON_PUBLICATION_ERROR, w)
  else
    let length := iov.foldl (· + ·) 0
    if w.pub.isClosed then
      (AERON_PUBLICATION_CLOSED, w)
    else
      let limit := w.positionLimit
      let termCount := aeron_logbuffer_active_term_count w.log
      let index := aeron_logbuffer_index_by_term_count termCount
      let rawTail := aeron_term_appender_raw_tail_volatile w.log index
      let termOffset := tailOffsetOf rawTail
      let termId := aeron_logbuffer_term_id rawTail
      let position := aeron_logbuffer_compute_term_begin_position
        termId w.pub.positionBitsToShift w.pub.initialTermId
      if termCount ≠ termId - w.pub.initialTermId then
        (AERON_PUBLICATION_ADMIN_ACTION, w)
      else if position < limit then
        if length ≤ w.pub.maxPayloadLength then
          let r := aeron_term_appender_append_unfragmented_message w.log index length termId
          let np := aeron_publication_new_position w termCount termOffset termId position r.1 r.2
          (np.1, { w with log := np.2 })
        else if length > w.pub.maxMessageLength then
          (AERON_PUBLICATION_ERROR, w)
        else
          let r := aeron_term_appender_append_fragmented_message
            w.log index length w.pub.maxPayloadLength termId
          let np := aeron_publication_new_position w termCount termOffset termId position r.1 r.2
          (np.1, { w with log := np.2 })
      else
        (aeron_publication_back_pressure_status w position length, w)

/-- `aeron_publication_try_claim` from `aeron_publication.c`: the length is
validated against `max_payload_length` *before* the closed/term-count checks —
a claim is never fragmented; then the claim appender runs where `offer` would
append. `claimIsNull` models a `NULL` `buffer_claim` argument. -/
def aeron_publication_try_claim (w : PubWorld) (claimIsNull : Bool) (length : Nat) :
    Int × PubWorld :=
  if claimIsNull then
    (AERON_PUBLICATION_ERROR, w)
  else if length > w.pub.maxPayloadLength then
    (AERON_PUBLICATION_ERROR, w)
  else if w.pub.isClosed then
    (AERON_PUBLICATION_CLOSED, w)
  else
    let limit := w.positionLimit
    let termCount := aeron_logbuffer_active_term_count w.log
    let index := aeron_logbuffer_index_by_term_count termCount
    let rawTail := aeron_term_appender_raw_tail_volatile w.log index
    let termOffset := tailOffsetOf rawTail
    let termId := aeron_logbuffer_term_id rawTail
    let position := aeron_logbuffer_compute_term_begin_position
      termId w.pub.positionBitsToShift w.pub.initialTermId
    if termCount ≠ termId - w.pub.initialTermId then
      (AERON_PUBLICATION_ADMIN_ACTION, w)
    else if position < limit then
      let r := aeron_term_appender_claim w.log index length termId
      let np := aeron_publication_new_position w termCount termOffset termId position r.1 r.2
      (np.1, { w with log := np.2 })
    else
      (aeron_publication_back_pressure_status w position length, w)

/-- Modelled from the spec: advancing `nextSessionId` (§4.2 Session-id
selection): "Wrap INT32_MAX → INT32_MIN"; the conductor's allocator is not in
the sampled sources (only its tests are). -/
def sessionIdAdvance (s : Int) : Int :=
  if s = int32Max then int32Min else s + 1

/-- Modelled from the spec: session-id selection (§4.2): starting from
`nextSessionId`, "skip values in `[reservedLow, reservedHigh]` and any
sessionId already used on the same (endpoint, streamId)", wrapping at
`INT32_MAX`. `used` lists the sessionIds in use on the (endpoint, streamId);
`fuel` bounds the walk (the int32 range is finite). `none` means no free
value was found within `fuel` candidates. -/
def nextAvailableSessionId
    (fuel : Nat) (candidate reservedLow reservedHigh : Int) (used : List Int) :
    Option Int :=
  match fuel with
  | 0 => none
  | fuel + 1 =>
    if (reservedLow ≤ candidate ∧ candidate ≤ reservedHigh) ∨ candidate ∈ used then
      nextAvailableSessionId fuel (sessionIdAdvance candidate) reservedLow reservedHigh used
    else
      some candidate

/-- A resolved socket address as the embedding sees it: the address family
(`2` for `AF_INET`, `10` for `AF_INET6`), the raw address bytes (4 for IPv4,
16 for IPv6, each in `0..255`), and the port in host order. -/
structure SockAddr where
  family : Nat
  addrBytes : List Nat
  port : Nat
  deriving DecidableEq, Repr

/-- `AF_INET`. -/
def AF_INET : Nat := 2

/-- `AF_INET6`. -/
def AF_INET6 : Nat := 10

/-- Replace the last element of a list by `f` applied to it. -/
def mapLast (f : Nat → Nat) : List Nat → List Nat
  | [] => []
  | [b] => [f b]
  | b :: rest => b :: mapLast f rest

/-- `aeron_ipv4_multicast_control_address` from `aeron_udp_channel.c`: reject
a data address whose last byte is even; otherwise the control address copies
the family and port and increments the last address byte (a `uint8_t`
increment, hence modulo 256). `none` models the `-1` error return. -/
def aeron_ipv4_multicast_control_address (dataAddr : SockAddr) : Option SockAddr :=
  let bytes := dataAddr.addrBytes.take 4
  if bytes.getLast! % 2 = 0 then
    none
  else
    some { family := dataAddr.family
           addrBytes := mapLast (fun b => (b + 1) % 256) bytes
           port := dataAddr.port }

/-- `aeron_ipv6_multicast_control_address` from `aeron_udp_channel.c`: the
same check and increment over the 16 address bytes. -/
def aeron_ipv6_multicast_control_address (dataAddr : SockAddr) : Option SockAddr :=
  let bytes := dataAddr.addrBytes.take 16
  if bytes.getLast! % 2 = 0 then
    none
  else
    some { family := dataAddr.family
           addrBytes := mapLast (fun b => (b + 1) % 256) bytes
           port := dataAddr.port }

/-- `aeron_multicast_control_address` from `aeron_udp_channel.c`: dispatch on
the address family; an unknown family is an error. -/
def aeron_multicast_control_address (dataAddr : SockAddr) : Option SockAddr :=
  if dataAddr.family = AF_INET6 then
    aeron_ipv6_multicast_control_address dataAddr
  else if dataAddr.family = AF_INET then
    aeron_ipv4_multicast_control_address dataAddr
  else
    none

/-- The lower-case hex digit table of `aeron_format_to_hex`. -/
def hexTable : List Char :=
  "0123456789abcdef".toList

/-- One lower-case hex digit. -/
def hexDigit (n : Nat) : Char := hexTable.getD n '0'

/-- The loop of `aeron_format_to_hex` from `aeron_strutil.c`: for each data
byte, while the output cursor `j` is below `str_length`, emit the high then
the low nibble as lower-case hex digits. -/
def formatToHexLoop (strLength : Nat) (j : Nat) : List Nat → List Char
  | [] => []
  | b :: rest =>
    if j < strLength then
      hexDigit (b / 16 % 16) :: hexDigit (b % 16) :: formatToHexLoop strLength (j + 2) rest
    else
      []

/-- `aeron_format_to_hex` from `aeron_strutil.c`, as the string it leaves in
`str` (the trailing `NUL` is the end of the string). -/
def aeron_format_to_hex (strLength : Nat) (data : List Nat) : String :=
  ⟨formatToHexLoop strLength 0 data⟩

/-- `AERON_FORMAT_HEX_LENGTH(b)`: the canonicalise buffers are sized for the
hex of a `sockaddr_in6` (16 bytes, two digits each, plus the terminator). -/
def AERON_FORMAT_HEX_LENGTH (b : Nat) : Nat := 2 * b + 1

/-- The address bytes and port `aeron_uri_udp_canonicalise` reads from one
address: 16 raw bytes for `AF_INET6`, else the 4 `sin_addr` bytes. -/
def canonicalAddrBytes (a : SockAddr) : List Nat :=
  if a.family = AF_INET6 then a.addrBytes.take 16 else a.addrBytes.take 4

/-- `aeron_uri_udp_canonicalise` from `aeron_udp_channel.c`, as the string
written through `snprintf("UDP-%s-%d-%s-%d%s", ...)`. `uniqueValue` is the
value fetched-and-incremented from the static counter when `makeUnique` is
set (truncation by the destination buffer sizes never binds for these
lengths and is not modelled). -/
def aeron_uri_udp_canonicalise
    (localData remoteData : SockAddr) (makeUnique : Bool) (uniqueValue : Int) : String :=
  let localStr := aeron_format_to_hex (AERON_FORMAT_HEX_LENGTH 16) (canonicalAddrBytes localData)
  let remoteStr := aeron_format_to_hex (AERON_FORMAT_HEX_LENGTH 16) (canonicalAddrBytes remoteData)
  let uniqueSuffix := if makeUnique then "-" ++ toString uniqueValue else ""
  "UDP-" ++ localStr ++ "-" ++ toString localData.port ++ "-" ++
    remoteStr ++ "-" ++ toString remoteData.port ++ uniqueSuffix

/-- The URI types of `aeron_uri.h`. -/
inductive AeronUriType where
  | udp
  | ipc
  | unknown
  deriving DecidableEq, Repr

/-- `aeron_udp_channel_params_t` from `aeron_uri.h`: the recognised UDP URI
parameters; absent parameters are `NULL` in the C and `none` here. -/
structure UdpChannelParams where
  endpoint : Option String
  bindInterface : Option String
  control : Option String
  controlMode : Option String
  channelTag : Option String
  deriving DecidableEq, Repr

/-- `aeron_uri_t` from `aeron_uri.h`, restricted to what
`aeron_udp_channel_parse` reads: the type and the UDP parameters. -/
structure AeronUri where
  type : AeronUriType
  udp : UdpChannelParams
  deriving DecidableEq, Repr

/-- Modelled from the spec: `AERON_URI_INVALID_TAG`, the failure value of
`aeron_uri_parse_tag` (declared in headers outside the sampled sources). -/
def AERON_URI_INVALID_TAG : Int := -1

/-- Modelled from the spec: `aeron_is_addr_multicast` from `aeron_netutil.h`
(not in the sampled sources): "Multicast is detected from the endpoint
address" (§4.3) — an IPv4 class-D address (first byte `224..239`) or an IPv6
address with first byte `0xff`. -/
def aeron_is_addr_multicast (a : SockAddr) : Bool :=
  if a.family = AF_INET6 then
    a.addrBytes.headD 0 = 0xff
  else
    224 ≤ a.addrBytes.headD 0 && a.addrBytes.headD 0 ≤ 239

/-- `aeron_set_ipv4_wildcard_host_and_port`: `0.0.0.0:0`. -/
def ipv4Wildcard : SockAddr :=
  { family := AF_INET, addrBytes := [0, 0, 0, 0], port := 0 }

/-- The collaborators `aeron_udp_channel_parse` calls that live outside the
sampled sources (URI string parsing, name resolution, interface discovery,
tag parsing, `ttl` extraction); each is passed in as an oracle so the parse
logic itself stays the code's. -/
structure ParseOracles where
  uriParse : String → Option AeronUri
  resolveHostPort : String → Option SockAddr
  parseTag : String → Int
  findMulticastInterface : Nat → Option String → Option (SockAddr × Nat)
  findUnicastInterface : Nat → Option String → Option (SockAddr × Nat)
  multicastTtl : Nat
  uniqueValue : Int

/-- The `aeron_udp_channel_t` fields `aeron_udp_channel_parse` fills in. -/
structure UdpChannel where
  uri : AeronUri
  hasExplicitControl : Bool
  isManualControlMode : Bool
  isDynamicControlMode : Bool
  isMulticast : Bool
  tagId : Int
  remoteData : SockAddr
  remoteControl : SockAddr
  localData : SockAddr
  localControl : SockAddr
  interfaceIndex : Nat
  multicastTtl : Nat
  canonicalForm : String
  deriving DecidableEq, Repr

/-- `aeron_udp_channel_parse` from `aeron_udp_channel.c`, over an oracle for
the out-of-sample collaborators. The result pairs the returned `int` with
`*channel`; every `error_cleanup` path returns `(-1, none)` since the C sets
`*channel = NULL` there (allocation of the channel record itself is assumed
to succeed). -/
def aeron_udp_channel_parse (o : ParseOracles) (uri : String) : Int × Option UdpChannel :=
  match o.uriParse uri with
  | none => (-1, none)
  | some parsedUri =>
    if parsedUri.type ≠ AeronUriType.udp then
      (-1, none)
    else
      let isManual := parsedUri.udp.controlMode = some "manual"
      let isDynamic := parsedUri.udp.controlMode = some "dynamic"
      if isDynamic ∧ parsedUri.udp.control = none then
        (-1, none)
      else
        let hasNoDistinguishingCharacteristic :=
          parsedUri.udp.endpoint = none ∧ parsedUri.udp.control = none ∧
            parsedUri.udp.channelTag = none
        if hasNoDistinguishingCharacteristic ∧ ¬isManual then
          (-1, none)
        else
          let endpointAddr? :=
            match parsedUri.udp.endpoint with
            | some e => o.resolveHostPort e
            | none => some ipv4Wildcard
          match endpointAddr? with
          | none => (-1, none)
          | some endpointAddr =>
            let controlAddr? :=
              match parsedUri.udp.control with
              | some c =>
                match o.resolveHostPort c with
                | none => none
                | some a => some (some a)
              | none => some none
            match controlAddr? with
            | none => (-1, none)
            | some explicitControlAddr? =>
              let tagId :=
                match parsedUri.udp.channelTag with
                | some t => o.parseTag t
                | none => AERON_URI_INVALID_TAG
              if parsedUri.udp.channelTag.isSome ∧ tagId = AERON_URI_INVALID_TAG then
                (-1, none)
              else if aeron_is_addr_multicast endpointAddr then
                match aeron_multicast_control_address endpointAddr with
                | none => (-1, none)
                | some remoteControl =>
                  match o.findMulticastInterface endpointAddr.family parsedUri.udp.bindInterface with
                  | none => (-1, none)
                  | some (interfaceAddr, interfaceIndex) =>
                    (0, some
                      { uri := parsedUri
                        hasExplicitControl := false
                        isManualControlMode := isManual
                        isDynamicControlMode := isDynamic
                        isMulticast := true
                        tagId := tagId
                        remoteData := endpointAddr
                        remoteControl := remoteControl
                        localData := interfaceAddr
                        localControl := interfaceAddr
                        interfaceIndex := interfaceIndex
                        multicastTtl := o.multicastTtl
                        canonicalForm :=
                          aeron_uri_udp_canonicalise interfaceAddr endpointAddr false o.uniqueValue })
              else
                match explicitControlAddr? with
                | some explicitControlAddr =>
                  (0, some
                    { uri := parsedUri
                      hasExplicitControl := true
                      isManualControlMode := isManual
                      isDynamicControlMode := isDynamic
                      isMulticast := false
                      tagId := tagId
                      remoteData := endpointAddr
                      remoteControl := endpointAddr
                      localData := explicitControlAddr
                      localControl := explicitControlAddr
                      interfaceIndex := 0
                      multicastTtl := 0
                      canonicalForm :=
                        aeron_uri_udp_canonicalise explicitControlAddr endpointAddr false o.uniqueValue })
                | none =>
                  match o.findUnicastInterface endpointAddr.family parsedUri.udp.bindInterface with
                  | none => (-1, none)
                  | some (interfaceAddr, interfaceIndex) =>
                    (0, some
                      { uri := parsedUri
                        hasExplicitControl := false
                        isManualControlMode := isManual
                        isDynamicControlMode := isDynamic
                        isMulticast := false
                        tagId := tagId
                        remoteData := endpointAddr
                        remoteControl := endpointAddr
                        localData := interfaceAddr
                        localControl := interfaceAddr
                        interfaceIndex := interfaceIndex
                        multicastTtl := 0
                        canonicalForm :=
                          aeron_uri_udp_canonicalise interfaceAddr endpointAddr
                            hasNoDistinguishingCharacteristic o.uniqueValue })

/-- The `NUL` byte written over delimiters by `aeron_tokenise`. -/
def nulChar : Char := Char.ofNat 0

/-- `EINVAL` (its Linux value; only its identity matters here). -/
def EINVAL : Int := 22

/-- `ERANGE` (its Linux value; only its identity matters here). -/
def ERANGE : Int := 34

/-- The loop of `aeron_tokenise` from `aeron_strutil.c`, walking the input
from its last byte down to index 0. `revPre` is the not-yet-visited prefix
`input[0..i]` reversed (so its head is the current byte and `i` is its tail's
length), `suf` is the already-visited suffix after in-place delimiter
replacement, `tokens`/`num` accumulate the token pointers (as indices) and
count. The triple returned is `(return value, final buffer, token array)`. -/
def tokeniseLoop (delim : Char) (maxTokens : Int) :
    List Char → List Char → List Nat → Int → Int × List Char × List Nat
  | [], suf, tokens, num => (num, suf, tokens)
  | c :: rest, suf, tokens, num =>
    let i := rest.length
    let c' := if c = delim then nulChar else c
    let next := suf.headD nulChar
    if i = 0 ∧ c' ≠ nulChar then
      if maxTokens ≤ num then
        (-ERANGE, rest.reverse ++ c' :: suf, tokens)
      else
        tokeniseLoop delim maxTokens rest (c' :: suf) (tokens ++ [i]) (num + 1)
    else if c' = nulChar ∧ next ≠ nulChar then
      if maxTokens ≤ num then
        (-ERANGE, rest.reverse ++ c' :: suf, tokens)
      else
        tokeniseLoop delim maxTokens rest (c' :: suf) (tokens ++ [i + 1]) (num + 1)
    else
      tokeniseLoop delim maxTokens rest (c' :: suf) tokens num

/-- `aeron_tokenise` from `aeron_strutil.c`. The input C string is a list of
bytes (`none` for a `NULL` pointer); the result is the returned `int`, the
buffer after in-place mutation, and the `tokens` array in store order. -/
def aeron_tokenise (input : Option (List Char)) (delim : Char) (maxTokens : Int) :
    Int × List Char × List Nat :=
  match input with
  | none => (-EINVAL, [], [])
  | some l =>
    if (l.length : Int) > int32Max then
      (-EINVAL, l, [])
    else if l.length = 0 then
      (0, l, [])
    else
      tokeniseLoop delim maxTokens l.reverse [] [] 0

/-- Position `i` of `l` starts a (non-empty) delimiter-separated token:
it holds a non-delimiter byte and is either the string start or preceded by a
delimiter. -/
def isTokenStart (delim : Char) (l : List Char) (i : Nat) : Bool :=
  (l.getD i nulChar != delim) && (i == 0 || l.getD (i - 1) nulChar == delim)

/-- The token start positions of `l`, in increasing order of occurrence. -/
def tokenStarts (delim : Char) (l : List Char) : List Nat :=
  (List.range l.length).filter (isTokenStart delim l)

/-- The in-place mutation `aeron_tokenise` performs: every delimiter byte
becomes `NUL`. -/
def replaceDelims (delim : Char) (l : List Char) : List Char :=
  l.map fun c => if c = delim then nulChar else c

/-- Last octet of an address with its low bit toggled (the operation the
spec's words describe for the multicast control address). -/
def toggleLowBitLast (bytes : List Nat) : List Nat :=
  mapLast (fun b => b ^^^ 1) bytes

/-- Spec-side hex encoding of one byte: two lower-case hex digits, written
with the standard digit table (`Nat.digitChar` maps `10..15` to `a..f`). -/
def specHexByte (b : Nat) : List Char :=
  [Nat.digitChar (b / 16 % 16), Nat.digitChar (b % 16)]

/-- Spec-side lower-case hex encoding of a byte string. -/
def specHexBytes (bytes : List Nat) : String :=
  ⟨(bytes.map specHexByte).flatten⟩

end Aeron

namespace Aeron

/-- Claim C1: the spec states the correct behaviour of
`aeron_publication_create` is to return 0 on success; the source instead
returns `-1` on its success path. This theorem pins the code's actual
behaviour: whenever allocation succeeds, the function stores a publication
into `*publication` and still returns `-1`, contradicting the documented
success convention. -/
theorem publication_create_returns_minus_one_on_success
    (streamId sessionId : Int) (log : LogBufferState) :
    (aeron_publication_create true streamId sessionId log).1 = -1 ∧
      (aeron_publication_create true streamId sessionId log).2.isSome := by
  simp [aeron_publication_create]

/-- Claim C5: a dynamically assigned sessionId is never inside the reserved
range `[reservedLow, reservedHigh]` and never equal to a sessionId already in
use on the same (endpoint, streamId); and the `nextSessionId` counter wraps
from `INT32_MAX` to `INT32_MIN` when advancing. -/
theorem next_session_id_avoids_reserved_and_used
    (fuel : Nat) (candidate reservedLow reservedHigh sid : Int) (used : List Int)
    (h : nextAvailableSessionId fuel candidate reservedLow reservedHigh used = some sid) :
    (¬(reservedLow ≤ sid ∧ sid ≤ reservedHigh) ∧ sid ∉ used) ∧
      sessionIdAdvance int32Max = int32Min := by
  refine ⟨?_, by simp [sessionIdAdvance]⟩
  induction fuel generalizing candidate with
  | zero => simp [nextAvailableSessionId] at h
  | succ n ih =>
    rw [nextAvailableSessionId] at h
    by_cases hc :
        (reservedLow ≤ candidate ∧ candidate ≤ reservedHigh) ∨ candidate ∈ used
    · rw [if_pos hc] at h
      exact ih _ h
    · rw [if_neg hc] at h
      cases h
      exact ⟨fun hr => hc (Or.inl hr), fun hu => hc (Or.inr hu)⟩

/-- Witness for C5: starting at candidate 5 with reserved range `[5, 10]` and
sessionId 11 in use, the allocator yields 12, which avoids both. -/
theorem next_session_id_avoids_reserved_and_used_witness :
    (¬((5 : Int) ≤ 12 ∧ (12 : Int) ≤ 10) ∧ (12 : Int) ∉ [(11 : Int)]) ∧
      sessionIdAdvance int32Max = int32Min :=
  next_session_id_avoids_reserved_and_used 100 5 5 10 12 [11] (by decide)

/-- Counterexample for C6: the code increments the last octet rather than
toggling its low bit. For the odd multicast data address `224.0.1.3` the
derived control address is `224.0.1.4`, whereas the claim's "last-octet low
bit toggled" address would be `224.0.1.2`. -/
theorem multicast_control_address_not_low_bit_toggle :
    aeron_multicast_control_address
        { family := AF_INET, addrBytes := [224, 0, 1, 3], port := 40456 } =
      some { family := AF_INET, addrBytes := [224, 0, 1, 4], port := 40456 } ∧
    toggleLowBitLast [224, 0, 1, 3] = [224, 0, 1, 2] ∧
    ([224, 0, 1, 4] : List Nat) ≠ toggleLowBitLast [224, 0, 1, 3] := by
  refine ⟨by decide, by decide, by decide⟩

/-- Claim C6 (amended): for every IPv4 or IPv6 multicast data address whose
last octet is odd, the derived control address keeps the family and port and
increments the last octet by one (modulo 256, the `uint8_t` increment); for an
even last octet, derivation fails and no control address is produced. -/
theorem multicast_control_address_spec
    (d : SockAddr)
    (hfam : d.family = AF_INET ∧ d.addrBytes.length = 4 ∨
      d.family = AF_INET6 ∧ d.addrBytes.length = 16) :
    (d.addrBytes.getLast! % 2 = 1 →
      aeron_multicast_control_address d =
        some { family := d.family,
               addrBytes := mapLast (fun b => (b + 1) % 256) d.addrBytes,
               port := d.port }) ∧
    (d.addrBytes.getLast! % 2 = 0 →
      aeron_multicast_control_address d = none) := by
  rcases hfam with ⟨hf, hl⟩ | ⟨hf, hl⟩
  · have htake : d.addrBytes.take 4 = d.addrBytes := by
      rw [← hl]; exact List.take_length _
    constructor
    · intro hodd
      have heven : ¬(d.addrBytes.getLast! % 2 = 0) := by omega
      simp [aeron_multicast_control_address, aeron_ipv4_multicast_control_address,
        aeron_ipv6_multicast_control_address, hf, AF_INET, AF_INET6, htake, heven]
    · intro heven
      simp [aeron_multicast_control_address, aeron_ipv4_multicast_control_address,
        aeron_ipv6_multicast_control_address, hf, AF_INET, AF_INET6, htake, heven]
  · have htake : d.addrBytes.take 16 = d.addrBytes := by
      rw [← hl]; exact List.take_length _
    constructor
    · intro hodd
      have heven : ¬(d.addrBytes.getLast! % 2 = 0) := by omega
      simp [aeron_multicast_control_address, aeron_ipv6_multicast_control_address,
        hf, AF_INET6, htake, heven]
    · intro heven
      simp [aeron_multicast_control_address, aeron_ipv6_multicast_control_address,
        hf, AF_INET6, htake, heven]

/-- Witness for C6 (amended): the odd IPv4 address `224.0.1.1:4000` derives
control `224.0.1.2:4000`, and derivation for the even `224.0.1.2:4000`
fails. -/
theorem multicast_control_address_spec_witness :
    aeron_multicast_control_address
        { family := AF_INET, addrBytes := [224, 0, 1, 1], port := 4000 } =
      some { family := AF_INET,
             addrBytes := mapLast (fun b => (b + 1) % 256) [224, 0, 1, 1],
             port := 4000 } ∧
    aeron_multicast_control_address
        { family := AF_INET, addrBytes := [224, 0, 1, 2], port := 4000 } = none :=
  ⟨(multicast_control_address_spec
      { family := AF_INET, addrBytes := [224, 0, 1, 1], port := 4000 }
      (Or.inl ⟨rfl, rfl⟩)).1 (by decide),
   (multicast_control_address_spec
      { family := AF_INET, addrBytes := [224, 0, 1, 2], port := 4000 }
      (Or.inl ⟨rfl, rfl⟩)).2 (by decide)⟩

/-- The partition index a publication call selects: `activeTermCount mod 3`. -/
def activeIndex (w : PubWorld) : Nat :=
  aeron_logbuffer_index_by_term_count (aeron_logbuffer_active_term_count w.log)

/-- The raw tail a publication call reads from the selected partition. -/
def currentRawTail (w : PubWorld) : Nat :=
  aeron_term_appender_raw_tail_volatile w.log (activeIndex w)

/-- The `termId` a publication call derives from the selected raw tail. -/
def currentTermId (w : PubWorld) : Int :=
  aeron_logbuffer_term_id (currentRawTail w)

/-- The would-be `position` a publication call computes from the current
tail. -/
def currentPosition (w : PubWorld) : Int :=
  aeron_logbuffer_compute_term_begin_position
    (currentTermId w) w.pub.positionBitsToShift w.pub.initialTermId

/-- A term-begin position is non-negative once the term is at or past the
initial term. -/
theorem term_begin_position_nonneg (termId initial : Int) (bits : Nat)
    (h : 0 ≤ termId - initial) :
    0 ≤ aeron_logbuffer_compute_term_begin_position termId bits initial := by
  unfold aeron_logbuffer_compute_term_begin_position
  exact mul_nonneg h (by positivity)

/-- Specialisation used in the offer proofs: once the active term count
matches `termId - initialTermId` and `activeTermCount ≥ 0`, the current
term-begin position is non-negative. -/
theorem term_begin_position_nonneg_of_eq (w : PubWorld) (termId : Int)
    (heq : aeron_logbuffer_active_term_count w.log = termId - w.pub.initialTermId)
    (hwf : 0 ≤ w.log.activeTermCount) :
    0 ≤ aeron_logbuffer_compute_term_begin_position termId
      w.pub.positionBitsToShift w.pub.initialTermId := by
  apply term_begin_position_nonneg
  rw [← heq]
  simpa [aeron_logbuffer_active_term_count] using hwf

/-- `aeron_publication_new_position` yields a position strictly above the
(non-negative) term-begin position, or one of the `MAX_POSITION_EXCEEDED` /
`ADMIN_ACTION` sentinels. -/
theorem new_position_classify
    (w : PubWorld) (termCount termOffset termId position ro : Int)
    (log : LogBufferState) (hpos : 0 ≤ position) :
    (aeron_publication_new_position w termCount termOffset termId position ro log).1 > 0 ∨
    (aeron_publication_new_position w termCount termOffset termId position ro log).1 =
      AERON_PUBLICATION_MAX_POSITION_EXCEEDED ∨
    (aeron_publication_new_position w termCount termOffset termId position ro log).1 =
      AERON_PUBLICATION_ADMIN_ACTION := by
  unfold aeron_publication_new_position
  split_ifs with h1 h2
  · left; simpa using by omega
  · right; left; rfl
  · right; right; rfl

/-- `aeron_publication_back_pressure_status` yields one of the
`MAX_POSITION_EXCEEDED` / `BACK_PRESSURED` / `NOT_CONNECTED` sentinels. -/
theorem back_pressure_status_classify (w : PubWorld) (p l : Int) :
    aeron_publication_back_pressure_status w p l =
        AERON_PUBLICATION_MAX_POSITION_EXCEEDED ∨
    aeron_publication_back_pressure_status w p l = AERON_PUBLICATION_BACK_PRESSURED ∨
    aeron_publication_back_pressure_status w p l = AERON_PUBLICATION_NOT_CONNECTED := by
  unfold aeron_publication_back_pressure_status
  split_ifs <;> simp

/-- Claim C2 (amended): a call to `aeron_publication_offer`,
`aeron_publication_offerv` or `aeron_publication_try_claim` that does not
return a position greater than 0 returns one of the five negative sentinels
`BACK_PRESSURED`, `NOT_CONNECTED`, `ADMIN_ACTION`, `CLOSED`,
`MAX_POSITION_EXCEEDED` — or the generic error sentinel
`AERON_PUBLICATION_ERROR` raised for invalid arguments and out-of-range
lengths; all six are negative, hence distinguishable from positive
positions. The well-formedness hypothesis is the log invariant
`activeTermCount ≥ 0`. -/
theorem publication_results_are_positions_or_sentinels
    (w : PubWorld) (length : Nat) (iov : List Nat)
    (hwf : 0 ≤ w.log.activeTermCount) :
    (¬((aeron_publication_offer w false length).1 > 0) →
      (aeron_publication_offer w false length).1 ∈
        AERON_PUBLICATION_ERROR :: fiveSentinels) ∧
    (¬((aeron_publication_offerv w false iov).1 > 0) →
      (aeron_publication_offerv w false iov).1 ∈
        AERON_PUBLICATION_ERROR :: fiveSentinels) ∧
    (¬((aeron_publication_try_claim w false length).1 > 0) →
      (aeron_publication_try_claim w false length).1 ∈
        AERON_PUBLICATION_ERROR :: fiveSentinels) ∧
    (∀ s ∈ AERON_PUBLICATION_ERROR :: fiveSentinels, s < 0) := by
  refine ⟨?_, ?_, ?_, ?_⟩
  · intro hnp
    unfold aeron_publication_offer at hnp ⊢
    simp only [Bool.false_eq_true, if_false] at hnp ⊢
    split_ifs at hnp ⊢ with h1 h2 h3 h4 h5
    · simp [fiveSentinels]
    · simp [fiveSentinels]
    · dsimp only at hnp ⊢
      have hpos := term_begin_position_nonneg_of_eq w _ (not_not.mp h2) hwf
      rcases new_position_classify w _ _ _ _
        (aeron_term_appender_append_unfragmented_message w.log
          (aeron_logbuffer_index_by_term_count (aeron_logbuffer_active_term_count w.log))
          length
          (aeron_logbuffer_term_id (aeron_term_appender_raw_tail_volatile w.log
            (aeron_logbuffer_index_by_term_count (aeron_logbuffer_active_term_count w.log))))).1
        _ hpos with hp | hm | ha
      · exact absurd hp hnp
      · rw [hm]; simp [fiveSentinels]
      · rw [ha]; simp [fiveSentinels]
    · simp [fiveSentinels]
    · dsimp only at hnp ⊢
      have hpos := term_begin_position_nonneg_of_eq w _ (not_not.mp h2) hwf
      rcases new_position_classify w _ _ _ _
        (aeron_term_appender_append_fragmented_message w.log
          (aeron_logbuffer_index_by_term_count (aeron_logbuffer_active_term_count w.log))
          length w.pub.maxPayloadLength
          (aeron_logbuffer_term_id (aeron_term_appender_raw_tail_volatile w.log
            (aeron_logbuffer_index_by_term_count (aeron_logbuffer_active_term_count w.log))))).1
        _ hpos with hp | hm | ha
      · exact absurd hp hnp
      · rw [hm]; simp [fiveSentinels]
      · rw [ha]; simp [fiveSentinels]
    · dsimp only at hnp ⊢
      rcases back_pressure_status_classify w
        (aeron_logbuffer_compute_term_begin_position
          (aeron_logbuffer_term_id (aeron_term_appender_raw_tail_volatile w.log
            (aeron_logbuffer_index_by_term_count (aeron_logbuffer_active_term_count w.log))))
          w.pub.positionBitsToShift w.pub.initialTermId) (length : Int) with hm | hb | hn
      · rw [hm]; simp [fiveSentinels]
      · rw [hb]; simp [fiveSentinels]
      · rw [hn]; simp [fiveSentinels]
  · intro hnp
    unfold aeron_publication_offerv at hnp ⊢
    simp only [Bool.false_eq_true, if_false] at hnp ⊢
    split_ifs at hnp ⊢ with h1 h2 h3 h4 h5
    · simp [fiveSentinels]
    · simp [fiveSentinels]
    · dsimp only at hnp ⊢
      have hpos := term_begin_position_nonneg_of_eq w _ (not_not.mp h2) hwf
      rcases new_position_classify w _ _ _ _
        (aeron_term_appender_append_unfragmented_message w.log
          (aeron_logbuffer_index_by_term_count (aeron_logbuffer_active_term_count w.log))
          (iov.foldl (· + ·) 0)
          (aeron_logbuffer_term_id (aeron_term_appender_raw_tail_volatile w.log
            (aeron_logbuffer_index_by_term_count (aeron_logbuffer_active_term_count w.log))))).1
        _ hpos with hp | hm | ha
      · exact absurd hp hnp
      · rw [hm]; simp [fiveSentinels]
      · rw [ha]; simp [fiveSentinels]
    · simp [fiveSentinels]
    · dsimp only at hnp ⊢
      have hpos := term_begin_position_nonneg_of_eq w _ (not_not.mp h2) hwf
      rcases new_position_classify w _ _ _ _
        (aeron_term_appender_append_fragmented_message w.log
          (aeron_logbuffer_index_by_term_count (aeron_logbuffer_active_term_count w.log))
          (iov.foldl (· + ·) 0) w.pub.maxPayloadLength
          (aeron_logbuffer_term_id (aeron_term_appender_raw_tail_volatile w.log
            (aeron_logbuffer_index_by_term_count (aeron_logbuffer_active_term_count w.log))))).1
        _ hpos with hp | hm | ha
      · exact absurd hp hnp
      · rw [hm]; simp [fiveSentinels]
      · rw [ha]; simp [fiveSentinels]
    · dsimp only at hnp ⊢
      rcases back_pressure_status_classify w
        (aeron_logbuffer_compute_term_begin_position
          (aeron_logbuffer_term_id (aeron_term_appender_raw_tail_volatile w.log
            (aeron_logbuffer_index_by_term_count (aeron_logbuffer_active_term_count w.log))))
          w.pub.positionBitsToShift w.pub.initialTermId) ((iov.foldl (· + ·) 0 : Nat) : Int)
        with hm | hb | hn
      · rw [hm]; simp [fiveSentinels]
      · rw [hb]; simp [fiveSentinels]
      · rw [hn]; simp [fiveSentinels]
  · intro hnp
    unfold aeron_publication_try_claim at hnp ⊢
    simp only [Bool.false_eq_true, if_false] at hnp ⊢
    split_ifs at hnp ⊢ with h1 h2 h3 h4
    · simp [fiveSentinels]
    · simp [fiveSentinels]
    · simp [fiveSentinels]
    · dsimp only at hnp ⊢
      have hpos := term_begin_position_nonneg_of_eq w _ (not_not.mp h3) hwf
      rcases new_position_classify w _ _ _ _
        (aeron_term_appender_claim w.log
          (aeron_logbuffer_index_by_term_count (aeron_logbuffer_active_term_count w.log))
          length
          (aeron_logbuffer_term_id (aeron_term_appender_raw_tail_volatile w.log
            (aeron_logbuffer_index_by_term_count (aeron_logbuffer_active_term_count w.log))))).1
        _ hpos with hp | hm | ha
      · exact absurd hp hnp
      · rw [hm]; simp [fiveSentinels]
      · rw [ha]; simp [fiveSentinels]
    · dsimp only at hnp ⊢
      rcases back_pressure_status_classify w
        (aeron_logbuffer_compute_term_begin_position
          (aeron_logbuffer_term_id (aeron_term_appender_raw_tail_volatile w.log
            (aeron_logbuffer_index_by_term_count (aeron_logbuffer_active_term_count w.log))))
          w.pub.positionBitsToShift w.pub.initialTermId) (length : Int) with hm | hb | hn
      · rw [hm]; simp [fiveSentinels]
      · rw [hb]; simp [fiveSentinels]
      · rw [hn]; simp [fiveSentinels]
  · intro s hs
    simp only [fiveSentinels] at hs
    fin_cases hs <;> decide

/-- A concrete open publication world: 64 KiB terms, 1408-byte MTU,
initial term 0, empty log, generous position limit. -/
def sampleWorld : PubWorld :=
  { pub := { streamId := 1001, sessionId := 7, isClosed := false,
             maxPossiblePosition := 65536 * 2 ^ 31, maxPayloadLength := 1376,
             maxMessageLength := 8192, positionBitsToShift := 16, initialTermId := 0 }
    log := { termLength := 65536, mtuLength := 1408, initialTermId := 0,
             activeTermCount := 0, tails := ⟨0, 0, 0⟩, isConnected := true,
             termBuffers := ⟨[], [], []⟩ }
    positionLimit := 100000 }

/-- `sampleWorld` caught mid-rotation: the active term count has been bumped
to 1, but the selected tail counter still carries termId 0. -/
def mismatchWorld : PubWorld :=
  { sampleWorld with log := { sampleWorld.log with activeTermCount := 1 } }

/-- `sampleWorld` at its position limit: the would-be position 0 is not below
the limit 0. -/
def backPressuredWorld : PubWorld :=
  { sampleWorld with positionLimit := 0 }

/-- Witness for C2 (amended): the classification holds at `sampleWorld`. -/
theorem publication_results_are_positions_or_sentinels_witness :
    (¬((aeron_publication_offer sampleWorld false 100).1 > 0) →
      (aeron_publication_offer sampleWorld false 100).1 ∈
        AERON_PUBLICATION_ERROR :: fiveSentinels) ∧
    (¬((aeron_publication_offerv sampleWorld false [60, 40]).1 > 0) →
      (aeron_publication_offerv sampleWorld false [60, 40]).1 ∈
        AERON_PUBLICATION_ERROR :: fiveSentinels) ∧
    (¬((aeron_publication_try_claim sampleWorld false 100).1 > 0) →
      (aeron_publication_try_claim sampleWorld false 100).1 ∈
        AERON_PUBLICATION_ERROR :: fiveSentinels) ∧
    (∀ s ∈ AERON_PUBLICATION_ERROR :: fiveSentinels, s < 0) :=
  publication_results_are_positions_or_sentinels sampleWorld 100 [60, 40] (by decide)

/-- Counterexample for C2 as stated: an offer of 20000 bytes on the open,
in-sync `sampleWorld` exceeds `max_message_length` and returns the generic
`AERON_PUBLICATION_ERROR`, which is not a position greater than 0 and not one
of the five named sentinels. -/
theorem publication_offer_error_sentinel_outside_the_five :
    ¬((aeron_publication_offer sampleWorld false 20000).1 > 0) ∧
      (aeron_publication_offer sampleWorld false 20000).1 ∉ fiveSentinels := by
  decide

/-- Claim C3 (amended): on an open publication whose active term count agrees
with `termId - initialTermId`, a call for which the position computed from the
current tail is at or beyond the position-limit counter performs no append —
the whole world, term buffers and tail counters included, is unchanged — and
returns the back-pressure status instead of attempting the tail update (for
`try_claim`, provided the length passes its up-front validation). -/
theorem back_pressure_returns_status_without_append
    (w : PubWorld) (length : Nat) (iov : List Nat)
    (hopen : w.pub.isClosed = false)
    (hmatch : aeron_logbuffer_active_term_count w.log =
      currentTermId w - w.pub.initialTermId)
    (hlim : w.positionLimit ≤ currentPosition w) :
    aeron_publication_offer w false length =
      (aeron_publication_back_pressure_status w (currentPosition w) length, w) ∧
    aeron_publication_offerv w false iov =
      (aeron_publication_back_pressure_status w (currentPosition w)
        ((iov.foldl (· + ·) 0 : Nat) : Int), w) ∧
    (length ≤ w.pub.maxPayloadLength →
      aeron_publication_try_claim w false length =
        (aeron_publication_back_pressure_status w (currentPosition w) length, w)) := by
  simp only [currentPosition, currentTermId, currentRawTail, activeIndex] at hmatch hlim ⊢
  refine ⟨?_, ?_, fun hlen => ?_⟩
  · unfold aeron_publication_offer
    simp only [Bool.false_eq_true, if_false, hopen]
    rw [if_neg (not_not_intro hmatch), if_neg (not_lt.mpr hlim)]
  · unfold aeron_publication_offerv
    simp only [Bool.false_eq_true, if_false, hopen]
    rw [if_neg (not_not_intro hmatch), if_neg (not_lt.mpr hlim)]
  · unfold aeron_publication_try_claim
    simp only [Bool.false_eq_true, if_false, hopen, if_neg (not_lt.mpr hlen)]
    rw [if_neg (not_not_intro hmatch), if_neg (not_lt.mpr hlim)]

/-- Witness for C3 (amended): at `backPressuredWorld` (limit 0) the three
calls return the back-pressure status and leave the world untouched. -/
theorem back_pressure_returns_status_without_append_witness :
    aeron_publication_offer backPressuredWorld false 100 =
      (aeron_publication_back_pressure_status backPressuredWorld
        (currentPosition backPressuredWorld) 100, backPressuredWorld) ∧
    aeron_publication_offerv backPressuredWorld false [60, 40] =
      (aeron_publication_back_pressure_status backPressuredWorld
        (currentPosition backPressuredWorld)
        (([60, 40].foldl (· + ·) 0 : Nat) : Int), backPressuredWorld) ∧
    (100 ≤ backPressuredWorld.pub.maxPayloadLength →
      aeron_publication_try_claim backPressuredWorld false 100 =
        (aeron_publication_back_pressure_status backPressuredWorld
          (currentPosition backPressuredWorld) 100, backPressuredWorld)) :=
  back_pressure_returns_status_without_append backPressuredWorld 100 [60, 40]
    (by decide) (by decide) (by decide)

/-- Counterexample for C3 as stated: at `mismatchBackPressuredWorld` the
publication is open and the computed position (0) is at the limit (0), yet
`offer` returns `ADMIN_ACTION` — the term-count race check fires before the
limit check — which differs from the back-pressure status of that state. -/
theorem offer_admin_action_despite_back_pressure :
    ({ mismatchWorld with positionLimit := 0 } : PubWorld).pub.isClosed = false ∧
    ¬(currentPosition { mismatchWorld with positionLimit := 0 } <
        ({ mismatchWorld with positionLimit := 0 } : PubWorld).positionLimit) ∧
    (aeron_publication_offer { mismatchWorld with positionLimit := 0 } false 100).1 =
      AERON_PUBLICATION_ADMIN_ACTION ∧
    AERON_PUBLICATION_ADMIN_ACTION ≠
      aeron_publication_back_pressure_status { mismatchWorld with positionLimit := 0 }
        (currentPosition { mismatchWorld with positionLimit := 0 }) 100 := by
  decide

/-- Claim C4 (amended): on an open publication, when the active term count
read from the log metadata differs from `termId - initialTermId` (a rotation
by another caller is in flight), `offer`, `offerv` and `try_claim` return
`ADMIN_ACTION` and change no log-buffer state — for `try_claim` provided its
length passes the up-front validation that precedes the term-count check. -/
theorem admin_action_on_term_count_mismatch
    (w : PubWorld) (length : Nat) (iov : List Nat)
    (hopen : w.pub.isClosed = false)
    (hmm : aeron_logbuffer_active_term_count w.log ≠
      currentTermId w - w.pub.initialTermId) :
    aeron_publication_offer w false length = (AERON_PUBLICATION_ADMIN_ACTION, w) ∧
    aeron_publication_offerv w false iov = (AERON_PUBLICATION_ADMIN_ACTION, w) ∧
    (length ≤ w.pub.maxPayloadLength →
      aeron_publication_try_claim w false length =
        (AERON_PUBLICATION_ADMIN_ACTION, w)) := by
  simp only [currentTermId, currentRawTail, activeIndex] at hmm
  refine ⟨?_, ?_, fun hlen => ?_⟩
  · unfold aeron_publication_offer
    simp only [Bool.false_eq_true, if_false, hopen]
    rw [if_pos hmm]
  · unfold aeron_publication_offerv
    simp only [Bool.false_eq_true, if_false, hopen]
    rw [if_pos hmm]
  · unfold aeron_publication_try_claim
    simp only [Bool.false_eq_true, if_false, hopen, if_neg (not_lt.mpr hlen)]
    rw [if_pos hmm]

/-- Witness for C4 (amended): at `mismatchWorld` (term count 1, tail termId 0)
the three calls return `ADMIN_ACTION` and leave the world untouched. -/
theorem admin_action_on_term_count_mismatch_witness :
    aeron_publication_offer mismatchWorld false 100 =
      (AERON_PUBLICATION_ADMIN_ACTION, mismatchWorld) ∧
    aeron_publication_offerv mismatchWorld false [60, 40] =
      (AERON_PUBLICATION_ADMIN_ACTION, mismatchWorld) ∧
    (100 ≤ mismatchWorld.pub.maxPayloadLength →
      aeron_publication_try_claim mismatchWorld false 100 =
        (AERON_PUBLICATION_ADMIN_ACTION, mismatchWorld)) :=
  admin_action_on_term_count_mismatch mismatchWorld 100 [60, 40] (by decide) (by decide)

/-- Counterexample for C4 as stated: at the open `mismatchWorld` the term
count disagrees with the tail's termId, yet `try_claim` of 2000 bytes (more
than `max_payload_length`) returns the generic error sentinel, not
`ADMIN_ACTION` — its length validation precedes the term-count check. -/
theorem try_claim_error_despite_term_count_mismatch :
    mismatchWorld.pub.isClosed = false ∧
    aeron_logbuffer_active_term_count mismatchWorld.log ≠
      currentTermId mismatchWorld - mismatchWorld.pub.initialTermId ∧
    (aeron_publication_try_claim mismatchWorld false 2000).1 =
      AERON_PUBLICATION_ERROR ∧
    AERON_PUBLICATION_ERROR ≠ AERON_PUBLICATION_ADMIN_ACTION := by
  decide

/-- Claim C9: `aeron_publication_try_claim` with a length above
`max_payload_length` returns the generic `AERON_PUBLICATION_ERROR` without
reading or modifying any log-buffer state — the world is returned unchanged —
a claim is never fragmented; `offer`, by contrast, accepts such a length
(up to `max_message_length`) by fragmenting it and never yields the error
sentinel there. -/
theorem try_claim_rejects_oversized_claims
    (w : PubWorld) (length : Nat)
    (hlen : w.pub.maxPayloadLength < length) :
    aeron_publication_try_claim w false length = (AERON_PUBLICATION_ERROR, w) ∧
    (0 ≤ w.log.activeTermCount → length ≤ w.pub.maxMessageLength →
      w.pub.isClosed = false →
      aeron_logbuffer_active_term_count w.log =
        currentTermId w - w.pub.initialTermId →
      currentPosition w < w.positionLimit →
      (aeron_publication_offer w false length).1 ≠ AERON_PUBLICATION_ERROR) := by
  constructor
  · unfold aeron_publication_try_claim
    simp only [Bool.false_eq_true, if_false, if_pos hlen]
  · intro hwf hmsg hopen hmatch hpos
    simp only [currentPosition, currentTermId, currentRawTail, activeIndex] at hmatch hpos
    unfold aeron_publication_offer
    simp only [Bool.false_eq_true, if_false, hopen]
    rw [if_neg (not_not_intro hmatch), if_pos hpos,
      if_neg (not_le.mpr hlen), if_neg (not_lt.mpr hmsg)]
    dsimp only
    have hposn := term_begin_position_nonneg_of_eq w _ hmatch hwf
    rcases new_position_classify w _ _ _ _
      (aeron_term_appender_append_fragmented_message w.log
        (aeron_logbuffer_index_by_term_count (aeron_logbuffer_active_term_count w.log))
        length w.pub.maxPayloadLength
        (aeron_logbuffer_term_id (aeron_term_appender_raw_tail_volatile w.log
          (aeron_logbuffer_index_by_term_count (aeron_logbuffer_active_term_count w.log))))).1
      _ hposn with hp | hm | ha
    · intro hcontra
      rw [hcontra] at hp
      simp [AERON_PUBLICATION_ERROR] at hp
    · rw [hm]; decide
    · rw [ha]; decide

/-- Witness for C9: at `sampleWorld` a 2000-byte claim (payload limit 1376)
is rejected with the error sentinel and the world is unchanged, while a
2000-byte offer there does not return the error sentinel. -/
theorem try_claim_rejects_oversized_claims_witness :
    aeron_publication_try_claim sampleWorld false 2000 =
      (AERON_PUBLICATION_ERROR, sampleWorld) ∧
    (0 ≤ sampleWorld.log.activeTermCount → 2000 ≤ sampleWorld.pub.maxMessageLength →
      sampleWorld.pub.isClosed = false →
      aeron_logbuffer_active_term_count sampleWorld.log =
        currentTermId sampleWorld - sampleWorld.pub.initialTermId →
      currentPosition sampleWorld < sampleWorld.positionLimit →
      (aeron_publication_offer sampleWorld false 2000).1 ≠ AERON_PUBLICATION_ERROR) :=
  try_claim_rejects_oversized_claims sampleWorld 2000 (by decide)

/-- Claim C7: a UDP channel URI that names none of `endpoint`, `control`, or
`tags` and whose control-mode is not `manual` fails to parse, as does a URI
with `control-mode=dynamic` but no `control` address: `aeron_udp_channel_parse`
returns `-1` and stores `NULL` into `*channel`. -/
theorem udp_channel_parse_requires_distinguishing_characteristic
    (o : ParseOracles) (uri : String) (u : AeronUri)
    (hparse : o.uriParse uri = some u) (htype : u.type = AeronUriType.udp) :
    (u.udp.endpoint = none → u.udp.control = none → u.udp.channelTag = none →
      u.udp.controlMode ≠ some "manual" →
      aeron_udp_channel_parse o uri = (-1, none)) ∧
    (u.udp.controlMode = some "dynamic" → u.udp.control = none →
      aeron_udp_channel_parse o uri = (-1, none)) := by
  constructor
  · intro he hc ht hm
    by_cases hd : u.udp.controlMode = some "dynamic"
    · simp [aeron_udp_channel_parse, hparse, htype, hd, hc]
    · simp [aeron_udp_channel_parse, hparse, htype, hd, hc, he, ht, hm]
  · intro hd hc
    simp [aeron_udp_channel_parse, hparse, htype, hd, hc]

/-- A parse oracle whose URI parser yields a bare `aeron:udp` URI (no
parameters at all); the remaining collaborators are never consulted on the
error paths. -/
def bareUdpOracles : ParseOracles :=
  { uriParse := fun _ =>
      some { type := AeronUriType.udp
             udp := { endpoint := none, bindInterface := none, control := none,
                      controlMode := none, channelTag := none } }
    resolveHostPort := fun _ => none
    parseTag := fun _ => AERON_URI_INVALID_TAG
    findMulticastInterface := fun _ _ => none
    findUnicastInterface := fun _ _ => none
    multicastTtl := 0
    uniqueValue := 0 }

/-- A parse oracle yielding a `control-mode=dynamic` URI without `control`. -/
def dynamicNoControlOracles : ParseOracles :=
  { bareUdpOracles with
    uriParse := fun _ =>
      some { type := AeronUriType.udp
             udp := { endpoint := some "224.10.9.9:456", bindInterface := none,
                      control := none, controlMode := some "dynamic",
                      channelTag := none } } }

/-- Witness for C7: the bare URI `aeron:udp` (no endpoint, control or tags,
control-mode unset) and the URI with `control-mode=dynamic` but no control
both make `aeron_udp_channel_parse` return `-1` with `*channel = NULL`. -/
theorem udp_channel_parse_requires_distinguishing_characteristic_witness :
    aeron_udp_channel_parse bareUdpOracles "aeron:udp" = (-1, none) ∧
      aeron_udp_channel_parse dynamicNoControlOracles
        "aeron:udp?endpoint=224.10.9.9:456|control-mode=dynamic" = (-1, none) := by
  constructor
  · exact (udp_channel_parse_requires_distinguishing_characteristic
      bareUdpOracles "aeron:udp" _ rfl rfl).1 rfl rfl rfl (by simp)
  · exact (udp_channel_parse_requires_distinguishing_characteristic
      dynamicNoControlOracles "aeron:udp?endpoint=224.10.9.9:456|control-mode=dynamic"
      _ rfl rfl).2 rfl rfl

/-- The code's hex table agrees with the standard lower-case digit characters
below 16. -/
theorem hexDigit_eq_digitChar (n : Nat) (h : n < 16) :
    hexDigit n = Nat.digitChar n := by
  interval_cases n <;> rfl

/-- The `aeron_format_to_hex` loop emits the full spec-side encoding whenever
the output buffer accommodates two digits per byte. -/
theorem formatToHexLoop_eq (data : List Nat) :
    ∀ j strLength, j + 2 * data.length ≤ strLength + 1 →
      formatToHexLoop strLength j data = (data.map specHexByte).flatten := by
  induction data with
  | nil => intro j s _; simp [formatToHexLoop]
  | cons b rest ih =>
    intro j s h
    have hj : j < s := by simp only [List.length_cons] at h; omega
    rw [formatToHexLoop, if_pos hj]
    simp only [List.map_cons, List.flatten_cons, specHexByte]
    rw [hexDigit_eq_digitChar _ (by omega), hexDigit_eq_digitChar _ (by omega)]
    simp only [List.length_cons] at h
    simp [ih (j + 2) s (by omega)]

/-- `aeron_format_to_hex` is the spec-side lower-case hex encoding whenever
the buffer accommodates two digits per byte — as it does at both call
sites in `aeron_uri_udp_canonicalise`. -/
theorem format_to_hex_eq_spec (strLength : Nat) (data : List Nat)
    (h : 2 * data.length ≤ strLength + 1) :
    aeron_format_to_hex strLength data = specHexBytes data := by
  unfold aeron_format_to_hex specHexBytes
  rw [formatToHexLoop_eq data 0 strLength (by omega)]

/-- For a well-formed address (4 bytes under `AF_INET`, 16 under `AF_INET6`),
canonicalisation reads exactly the raw address bytes. -/
theorem canonicalAddrBytes_eq (a : SockAddr)
    (h : a.family = AF_INET ∧ a.addrBytes.length = 4 ∨
         a.family = AF_INET6 ∧ a.addrBytes.length = 16) :
    canonicalAddrBytes a = a.addrBytes := by
  rcases h with ⟨hf, hl⟩ | ⟨hf, hl⟩
  · rw [canonicalAddrBytes, if_neg (by simp [hf, AF_INET, AF_INET6]), ← hl,
      List.take_length]
  · rw [canonicalAddrBytes, if_pos (by simp [hf]), ← hl, List.take_length]

/-- Claim C8: for resolved local and remote addresses,
`aeron_uri_udp_canonicalise` produces exactly
`"UDP-" ++ hex(localBytes) ++ "-" ++ localPort ++ "-" ++ hex(remoteBytes) ++
"-" ++ remotePort`, with the lower-case hex of the raw address bytes (4 for
IPv4, 16 for IPv6), decimal ports, and a `-<n>` unique suffix appended if and
only if `make_unique` is true. -/
theorem uri_udp_canonicalise_format
    (localData remoteData : SockAddr) (makeUnique : Bool) (n : Int)
    (hl : localData.family = AF_INET ∧ localData.addrBytes.length = 4 ∨
          localData.family = AF_INET6 ∧ localData.addrBytes.length = 16)
    (hr : remoteData.family = AF_INET ∧ remoteData.addrBytes.length = 4 ∨
          remoteData.family = AF_INET6 ∧ remoteData.addrBytes.length = 16) :
    aeron_uri_udp_canonicalise localData remoteData makeUnique n =
      "UDP-" ++ specHexBytes localData.addrBytes ++ "-" ++
        toString localData.port ++ "-" ++ specHexBytes remoteData.addrBytes ++
        "-" ++ toString remoteData.port ++
        (if makeUnique then "-" ++ toString n else "") := by
  have hlenl : 2 * localData.addrBytes.length ≤ AERON_FORMAT_HEX_LENGTH 16 + 1 := by
    rcases hl with ⟨_, h4⟩ | ⟨_, h16⟩
    · simp [AERON_FORMAT_HEX_LENGTH, h4]
    · simp [AERON_FORMAT_HEX_LENGTH, h16]
  have hlenr : 2 * remoteData.addrBytes.length ≤ AERON_FORMAT_HEX_LENGTH 16 + 1 := by
    rcases hr with ⟨_, h4⟩ | ⟨_, h16⟩
    · simp [AERON_FORMAT_HEX_LENGTH, h4]
    · simp [AERON_FORMAT_HEX_LENGTH, h16]
  unfold aeron_uri_udp_canonicalise
  rw [canonicalAddrBytes_eq localData hl, canonicalAddrBytes_eq remoteData hr,
    format_to_hex_eq_spec _ _ hlenl, format_to_hex_eq_spec _ _ hlenr]

/-- The token starts of `l` at positions `≥ i`, in increasing order. -/
def startsFrom (delim : Char) (l : List Char) (i : Nat) : List Nat :=
  (List.range' i (l.length - i)).filter (isTokenStart delim l)

/-- At position 0 the suffix starts are all the token starts. -/
theorem startsFrom_zero (delim : Char) (l : List Char) :
    startsFrom delim l 0 = tokenStarts delim l := by
  simp [startsFrom, tokenStarts, List.range_eq_range']

/-- Beyond the end of the list there are no token starts. -/
theorem startsFrom_of_le (delim : Char) (l : List Char) (i : Nat)
    (h : l.length ≤ i) : startsFrom delim l i = [] := by
  simp [startsFrom, Nat.sub_eq_zero_of_le h]

/-- Peeling one position off the suffix of token starts. -/
theorem startsFrom_succ (delim : Char) (l : List Char) (i : Nat)
    (h : i < l.length) :
    startsFrom delim l i =
      (if isTokenStart delim l i then [i] else []) ++ startsFrom delim l (i + 1) := by
  have hn : l.length - i = (l.length - (i + 1)) + 1 := by omega
  rw [startsFrom, hn, List.range'_succ, List.filter_cons, startsFrom]
  split_ifs <;> simp_all

/-- When position `i` is not a token start (or lies beyond the end), the
suffix starts at `i` and `i + 1` agree. -/
theorem startsFrom_succ_of_not_start (delim : Char) (l : List Char) (i : Nat)
    (h : ¬(isTokenStart delim l i = true) ∨ l.length ≤ i) :
    startsFrom delim l i = startsFrom delim l (i + 1) := by
  by_cases hi : i < l.length
  · rcases h with h | h
    · rw [startsFrom_succ delim l i hi, if_neg h]; rfl
    · omega
  · rw [startsFrom_of_le delim l i (by omega), startsFrom_of_le delim l (i + 1) (by omega)]

/-- Suffix starts only shrink as the start position grows. -/
theorem startsFrom_length_antitone (delim : Char) (l : List Char) :
    ∀ i, (startsFrom delim l (i + 1)).length ≤ (startsFrom delim l i).length := by
  intro i
  by_cases hi : i < l.length
  · rw [startsFrom_succ delim l i hi]
    simp
  · rw [startsFrom_of_le delim l i (by omega),
      startsFrom_of_le delim l (i + 1) (by omega)]

/-- Every suffix of token starts is no longer than the full list of starts. -/
theorem startsFrom_length_le (delim : Char) (l : List Char) (i : Nat) :
    (startsFrom delim l i).length ≤ (tokenStarts delim l).length := by
  rw [← startsFrom_zero delim l]
  induction i with
  | zero => exact le_refl _
  | succ n ih => exact le_trans (startsFrom_length_antitone delim l n) ih

/-- `List.getD` at the junction of an append. -/
theorem getD_append_self (xs ys : List Char) (c d : Char) :
    (xs ++ c :: ys).getD xs.length d = c := by
  induction xs with
  | nil => rfl
  | cons x xs ih => simpa using ih

/-- `List.getD` one past the junction of an append. -/
theorem getD_append_succ (xs ys : List Char) (c d : Char) :
    (xs ++ c :: ys).getD (xs.length + 1) d = ys.getD 0 d := by
  induction xs with
  | nil => rfl
  | cons x xs ih =>
    simp only [List.cons_append, List.length_cons]
    rw [List.getD_cons_succ]
    exact ih

/-- The `aeron_tokenise` loop, run over the reversed prefix `rp` with the
already-processed suffix `sufOrig` (its delimiters replaced) and the token
starts strictly beyond `rp` accumulated, finishes — when the token count fits
`max_tokens` — with the full token count, the fully replaced buffer, and all
token starts stored in reverse order of occurrence. -/
theorem tokeniseLoop_success (delim : Char) (maxTokens : Int) (l : List Char)
    (hnul : nulChar ∉ l)
    (htot : ((tokenStarts delim l).length : Int) ≤ maxTokens) :
    ∀ rp sufOrig, rp ≠ [] → rp.reverse ++ sufOrig = l →
      tokeniseLoop delim maxTokens rp (replaceDelims delim sufOrig)
        ((startsFrom delim l (rp.length + 1)).reverse)
        ((startsFrom delim l (rp.length + 1)).length : Int) =
      (((tokenStarts delim l).length : Int), replaceDelims delim l,
        (tokenStarts delim l).reverse) := by
  intro rp
  induction rp with
  | nil => intro sufOrig hne _; exact absurd rfl hne
  | cons c rest ih =>
    intro sufOrig _ hl
    have hl' : rest.reverse ++ c :: sufOrig = l := by
      rw [← hl]; simp
    have hcl : c ∈ l := by rw [← hl']; simp
    have hcnul : c ≠ nulChar := fun hc => hnul (hc ▸ hcl)
    have hgc : l.getD rest.length nulChar = c := by
      rw [← hl', ← List.length_reverse rest]; exact getD_append_self _ _ _ _
    have hgc1 : l.getD (rest.length + 1) nulChar = sufOrig.getD 0 nulChar := by
      rw [← hl', ← List.length_reverse rest]; exact getD_append_succ _ _ _ _
    have hlen : l.length = rest.length + 1 + sufOrig.length := by
      rw [← hl']; simp; omega
    rcases rest with _ | ⟨r, rs⟩
    · -- base: rp = [c], position 0 is processed and the loop finishes
      rw [show ([c].length + 1) = 2 from rfl]
      have hl0 : l = c :: sufOrig := hl'.symm
      by_cases hcd : c = delim
      · -- l starts with a delimiter: no token at 0
        have hstart0 : isTokenStart delim l 0 = false := by
          simp [isTokenStart, List.getD] at hgc ⊢
          simp [hgc, hcd]
        have hS0 : startsFrom delim l 0 = startsFrom delim l 1 :=
          startsFrom_succ_of_not_start delim l 0 (Or.inl (by simp [hstart0]))
        rcases sufOrig with _ | ⟨h0, t0⟩
        · -- the whole string is the single delimiter
          have hS1 : startsFrom delim l 1 = startsFrom delim l 2 :=
            startsFrom_succ_of_not_start delim l 1 (Or.inr (by rw [hlen]; simp))
          rw [tokeniseLoop]
          rw [if_neg (by simp [hcd]), if_neg (by simp [replaceDelims])]
          rw [tokeniseLoop]
          rw [← startsFrom_zero delim l, hS0, hS1]
          simp [replaceDelims, hl0, hcd]
        · by_cases hh : h0 = delim
          · -- delimiter followed by delimiter: still no token
            have hstart1 : isTokenStart delim l 1 = false := by
              simp [isTokenStart, List.getD] at hgc1 ⊢
              simp [hgc1, hh]
            have hS1 : startsFrom delim l 1 = startsFrom delim l 2 :=
              startsFrom_succ_of_not_start delim l 1 (Or.inl (by simp [hstart1]))
            rw [tokeniseLoop]
            rw [if_neg (by simp [hcd]), if_neg (by simp [replaceDelims, hh])]
            rw [tokeniseLoop]
            rw [← startsFrom_zero delim l, hS0, hS1]
            simp [replaceDelims, hl0, hcd]
          · -- delimiter followed by a token byte: token at index 1
            have hh0nul : h0 ≠ nulChar := by
              intro he; exact hnul (he ▸ (by rw [← hl']; simp))
            have hstart1 : isTokenStart delim l 1 = true := by
              simp [isTokenStart, List.getD] at hgc hgc1 ⊢
              simp [hgc, hgc1, hh, hcd]
            have hS1 : startsFrom delim l 1 = 1 :: startsFrom delim l 2 := by
              rw [startsFrom_succ delim l 1 (by rw [hlen]; simp), if_pos hstart1]
              rfl
            have hcount : ((startsFrom delim l 2).length : Int) + 1 ≤ maxTokens := by
              have h1 := startsFrom_length_le delim l 1
              rw [hS1] at h1
              simp only [List.length_cons] at h1
              omega
            rw [tokeniseLoop]
            rw [if_neg (by simp [hcd]),
              if_pos (by simp [replaceDelims, hh, hh0nul, hcd]),
              if_neg (by omega)]
            rw [tokeniseLoop]
            rw [← startsFrom_zero delim l, hS0, hS1]
            simp [replaceDelims, hl0, hcd]
      · -- l starts with a token byte: token at index 0, no token at 1
        have hstart0 : isTokenStart delim l 0 = true := by
          simp [isTokenStart, List.getD] at hgc ⊢
          simp [hgc, hcd]
        have hstart1 : isTokenStart delim l 1 = false := by
          simp [isTokenStart, List.getD] at hgc ⊢
          simp [hgc, hcd]
        have hS0 : startsFrom delim l 0 = 0 :: startsFrom delim l 1 := by
          rw [startsFrom_succ delim l 0 (by rw [hlen]; simp), if_pos hstart0]
          rfl
        have hS1 : startsFrom delim l 1 = startsFrom delim l 2 :=
          startsFrom_succ_of_not_start delim l 1 (Or.inl (by simp [hstart1]))
        have hcount : ((startsFrom delim l 2).length : Int) + 1 ≤ maxTokens := by
          have h0 := startsFrom_length_le delim l 0
          rw [hS0, hS1] at h0
          simp only [List.length_cons] at h0
          omega
        rw [tokeniseLoop]
        rw [if_pos (by simp [hcd, hcnul]), if_neg (by omega)]
        rw [tokeniseLoop]
        rw [← startsFrom_zero delim l, hS0, hS1]
        simp [replaceDelims, hl0, hcd]
    · -- step: the position of `c` is `rs.length + 1 ≥ 1`
      have hne' : (r :: rs) ≠ [] := by simp
      have hsuf : (r :: rs).reverse ++ (c :: sufOrig) = l := hl'
      rw [show ((c :: r :: rs).length + 1) = rs.length + 3 from rfl]
      have hlen' : l.length = rs.length + 2 + sufOrig.length := by rw [hlen]; rfl
      have hgc' : l.getD (rs.length + 1) nulChar = c := hgc
      have hgc1' : l.getD (rs.length + 2) nulChar = sufOrig.getD 0 nulChar := hgc1
      have H := ih (c :: sufOrig) hne' hsuf
      rw [show ((r :: rs).length + 1) = rs.length + 2 from rfl] at H
      by_cases hcd : c = delim
      · rcases sufOrig with _ | ⟨h0, t0⟩
        · -- past the end of the string: nothing to detect
          have hS : startsFrom delim l (rs.length + 2) =
              startsFrom delim l (rs.length + 3) :=
            startsFrom_succ_of_not_start delim l (rs.length + 2)
              (Or.inr (by simp only [List.length_nil] at hlen'; omega))
          rw [hS] at H
          rw [tokeniseLoop]
          rw [if_neg (by simp), if_neg (by simp [replaceDelims])]
          simpa [replaceDelims, hcd] using H
        · by_cases hh : h0 = delim
          · -- a delimiter byte follows: no token boundary here
            have hstart : isTokenStart delim l (rs.length + 2) = false := by
              simp [List.getD] at hgc1'
              simp [isTokenStart, List.getD, hgc1', hh]
            have hS : startsFrom delim l (rs.length + 2) =
                startsFrom delim l (rs.length + 3) :=
              startsFrom_succ_of_not_start delim l (rs.length + 2)
                (Or.inl (by simp [hstart]))
            rw [hS] at H
            rw [tokeniseLoop]
            rw [if_neg (by simp), if_neg (by simp [replaceDelims, hh])]
            simpa [replaceDelims, hcd] using H
          · -- delimiter then token byte: a token starts at `rs.length + 2`
            have hh0nul : h0 ≠ nulChar := by
              intro he; exact hnul (he ▸ (by rw [← hl']; simp))
            have hstart : isTokenStart delim l (rs.length + 2) = true := by
              simp [List.getD] at hgc1' hgc'
              simp [isTokenStart, List.getD, hgc1', hgc', hh, hcd]
            have hS : startsFrom delim l (rs.length + 2) =
                (rs.length + 2) :: startsFrom delim l (rs.length + 3) := by
              rw [startsFrom_succ delim l (rs.length + 2) (by simp at hlen'; omega),
                if_pos hstart]
              rfl
            have hcount : ((startsFrom delim l (rs.length + 3)).length : Int) + 1 ≤
                maxTokens := by
              have h1 := startsFrom_length_le delim l (rs.length + 2)
              rw [hS] at h1
              simp only [List.length_cons] at h1
              omega
            rw [hS] at H
            rw [tokeniseLoop]
            rw [if_neg (by simp),
              if_pos (by simp [replaceDelims, hh, hh0nul, hcd]),
              if_neg (by omega),
              show ((r :: rs).length + 1) = rs.length + 2 from rfl]
            simp only [List.reverse_cons, List.length_cons] at H
            push_cast at H ⊢
            simpa [replaceDelims, hcd] using H
      · -- a token byte at this position: no boundary is detected here
        have hstart : isTokenStart delim l (rs.length + 2) = false := by
          simp [List.getD] at hgc'
          simp [isTokenStart, List.getD, hgc', hcd]
        have hS : startsFrom delim l (rs.length + 2) =
            startsFrom delim l (rs.length + 3) :=
          startsFrom_succ_of_not_start delim l (rs.length + 2)
            (Or.inl (by simp [hstart]))
        rw [hS] at H
        rw [tokeniseLoop]
        rw [if_neg (by simp), if_neg (by simp [replaceDelims, hcnul, hcd])]
        simpa [replaceDelims, hcd] using H

/-- The `aeron_tokenise` loop under the same invariant breaks with `-ERANGE`
as soon as storing one more token would exceed `max_tokens`, whenever the
total token count exceeds `max_tokens`. -/
theorem tokeniseLoop_erange (delim : Char) (maxTokens : Int) (l : List Char)
    (hnul : nulChar ∉ l)
    (htot : maxTokens < ((tokenStarts delim l).length : Int))
    (hpos : 1 ≤ (tokenStarts delim l).length) :
    ∀ rp sufOrig, rp ≠ [] → rp.reverse ++ sufOrig = l →
      (((startsFrom delim l (rp.length + 1)).length : Int) ≤ maxTokens ∨
        (startsFrom delim l (rp.length + 1)).length = 0) →
      (tokeniseLoop delim maxTokens rp (replaceDelims delim sufOrig)
        ((startsFrom delim l (rp.length + 1)).reverse)
        ((startsFrom delim l (rp.length + 1)).length : Int)).1 = -ERANGE := by
  rw [← startsFrom_zero delim l] at htot hpos
  intro rp
  induction rp with
  | nil => intro sufOrig hne _ _; exact absurd rfl hne
  | cons c rest ih =>
    intro sufOrig _ hl hle
    have hl' : rest.reverse ++ c :: sufOrig = l := by
      rw [← hl]; simp
    have hcl : c ∈ l := by rw [← hl']; simp
    have hcnul : c ≠ nulChar := fun hc => hnul (hc ▸ hcl)
    have hgc : l.getD rest.length nulChar = c := by
      rw [← hl', ← List.length_reverse rest]; exact getD_append_self _ _ _ _
    have hgc1 : l.getD (rest.length + 1) nulChar = sufOrig.getD 0 nulChar := by
      rw [← hl', ← List.length_reverse rest]; exact getD_append_succ _ _ _ _
    have hlen : l.length = rest.length + 1 + sufOrig.length := by
      rw [← hl']; simp; omega
    rcases rest with _ | ⟨r, rs⟩
    · -- base: the loop ends after position 0 unless it breaks there
      rw [show ([c].length + 1) = 2 from rfl] at hle ⊢
      by_cases hcd : c = delim
      · have hstart0 : isTokenStart delim l 0 = false := by
          simp [isTokenStart, List.getD] at hgc ⊢
          simp [hgc, hcd]
        have hS0 : startsFrom delim l 0 = startsFrom delim l 1 :=
          startsFrom_succ_of_not_start delim l 0 (Or.inl (by simp [hstart0]))
        rcases sufOrig with _ | ⟨h0, t0⟩
        · have hS1 : startsFrom delim l 1 = startsFrom delim l 2 :=
            startsFrom_succ_of_not_start delim l 1 (Or.inr (by rw [hlen]; simp))
          rw [hS0, hS1] at htot hpos
          rcases hle with hle | hle <;> omega
        · by_cases hh : h0 = delim
          · have hstart1 : isTokenStart delim l 1 = false := by
              simp [isTokenStart, List.getD] at hgc1 ⊢
              simp [hgc1, hh]
            have hS1 : startsFrom delim l 1 = startsFrom delim l 2 :=
              startsFrom_succ_of_not_start delim l 1 (Or.inl (by simp [hstart1]))
            rw [hS0, hS1] at htot hpos
            rcases hle with hle | hle <;> omega
          · have hh0nul : h0 ≠ nulChar := by
              intro he; exact hnul (he ▸ (by rw [← hl']; simp))
            have hstart1 : isTokenStart delim l 1 = true := by
              simp [isTokenStart, List.getD] at hgc hgc1 ⊢
              simp [hgc, hgc1, hh, hcd]
            have hS1 : startsFrom delim l 1 = 1 :: startsFrom delim l 2 := by
              rw [startsFrom_succ delim l 1 (by rw [hlen]; simp), if_pos hstart1]
              rfl
            have hck : maxTokens ≤ ((startsFrom delim l 2).length : Int) := by
              rw [hS0, hS1] at htot
              simp only [List.length_cons] at htot
              omega
            rw [tokeniseLoop]
            rw [if_neg (by simp [hcd]),
              if_pos (by simp [replaceDelims, hh, hh0nul, hcd]), if_pos hck]
      · have hstart0 : isTokenStart delim l 0 = true := by
          simp [isTokenStart, List.getD] at hgc ⊢
          simp [hgc, hcd]
        have hstart1 : isTokenStart delim l 1 = false := by
          simp [isTokenStart, List.getD] at hgc ⊢
          simp [hgc, hcd]
        have hS0 : startsFrom delim l 0 = 0 :: startsFrom delim l 1 := by
          rw [startsFrom_succ delim l 0 (by rw [hlen]; simp), if_pos hstart0]
          rfl
        have hS1 : startsFrom delim l 1 = startsFrom delim l 2 :=
          startsFrom_succ_of_not_start delim l 1 (Or.inl (by simp [hstart1]))
        have hck : maxTokens ≤ ((startsFrom delim l 2).length : Int) := by
          rw [hS0, hS1] at htot
          simp only [List.length_cons] at htot
          omega
        rw [tokeniseLoop]
        rw [if_pos (by simp [hcd, hcnul]), if_pos hck]
    · -- step: recurse, or break at the check
      have hne' : (r :: rs) ≠ [] := by simp
      have hsuf : (r :: rs).reverse ++ (c :: sufOrig) = l := hl'
      rw [show ((c :: r :: rs).length + 1) = rs.length + 3 from rfl] at hle ⊢
      have hlen' : l.length = rs.length + 2 + sufOrig.length := by rw [hlen]; rfl
      have hgc' : l.getD (rs.length + 1) nulChar = c := hgc
      have hgc1' : l.getD (rs.length + 2) nulChar = sufOrig.getD 0 nulChar := hgc1
      have H := fun h => ih (c :: sufOrig) hne' hsuf h
      rw [show ((r :: rs).length + 1) = rs.length + 2 from rfl] at H
      by_cases hcd : c = delim
      · rcases sufOrig with _ | ⟨h0, t0⟩
        · have hS : startsFrom delim l (rs.length + 2) =
              startsFrom delim l (rs.length + 3) :=
            startsFrom_succ_of_not_start delim l (rs.length + 2)
              (Or.inr (by simp only [List.length_nil] at hlen'; omega))
          rw [hS] at H
          rw [tokeniseLoop]
          rw [if_neg (by simp), if_neg (by simp [replaceDelims])]
          simpa [replaceDelims, hcd] using H hle
        · by_cases hh : h0 = delim
          · have hstart : isTokenStart delim l (rs.length + 2) = false := by
              simp [List.getD] at hgc1'
              simp [isTokenStart, List.getD, hgc1', hh]
            have hS : startsFrom delim l (rs.length + 2) =
                startsFrom delim l (rs.length + 3) :=
              startsFrom_succ_of_not_start delim l (rs.length + 2)
                (Or.inl (by simp [hstart]))
            rw [hS] at H
            rw [tokeniseLoop]
            rw [if_neg (by simp), if_neg (by simp [replaceDelims, hh])]
            simpa [replaceDelims, hcd] using H hle
          · have hh0nul : h0 ≠ nulChar := by
              intro he; exact hnul (he ▸ (by rw [← hl']; simp))
            have hstart : isTokenStart delim l (rs.length + 2) = true := by
              simp [List.getD] at hgc1' hgc'
              simp [isTokenStart, List.getD, hgc1', hgc', hh, hcd]
            have hS : startsFrom delim l (rs.length + 2) =
                (rs.length + 2) :: startsFrom delim l (rs.length + 3) := by
              rw [startsFrom_succ delim l (rs.length + 2) (by simp at hlen'; omega),
                if_pos hstart]
              rfl
            by_cases hck : maxTokens ≤ ((startsFrom delim l (rs.length + 3)).length : Int)
            · rw [tokeniseLoop]
              rw [if_neg (by simp),
                if_pos (by simp [replaceDelims, hh, hh0nul, hcd]), if_pos hck]
            · have hle' : ((startsFrom delim l (rs.length + 2)).length : Int) ≤
                    maxTokens ∨
                  (startsFrom delim l (rs.length + 2)).length = 0 := by
                refine Or.inl ?_
                rw [hS]
                simp only [List.length_cons]
                omega
              have H2 := H hle'
              rw [hS] at H2
              rw [tokeniseLoop]
              rw [if_neg (by simp),
                if_pos (by simp [replaceDelims, hh, hh0nul, hcd]),
                if_neg hck,
                show ((r :: rs).length + 1) = rs.length + 2 from rfl]
              simp only [List.reverse_cons, List.length_cons] at H2
              push_cast at H2 ⊢
              simpa [replaceDelims, hcd] using H2
      · have hstart : isTokenStart delim l (rs.length + 2) = false := by
          simp [List.getD] at hgc'
          simp [isTokenStart, List.getD, hgc', hcd]
        have hS : startsFrom delim l (rs.length + 2) =
            startsFrom delim l (rs.length + 3) :=
          startsFrom_succ_of_not_start delim l (rs.length + 2)
            (Or.inl (by simp [hstart]))
        rw [hS] at H
        rw [tokeniseLoop]
        rw [if_neg (by simp), if_neg (by simp [replaceDelims, hcnul, hcd])]
        simpa [replaceDelims, hcd] using H hle

/-- Witness for C8: `127.0.0.1:40123` and `192.168.1.20:9999` with a unique
suffix requested canonicalise to the spec-side format. -/
theorem uri_udp_canonicalise_format_witness :
    aeron_uri_udp_canonicalise
        { family := AF_INET, addrBytes := [127, 0, 0, 1], port := 40123 }
        { family := AF_INET, addrBytes := [192, 168, 1, 20], port := 9999 }
        true 7 =
      "UDP-" ++ specHexBytes [127, 0, 0, 1] ++ "-" ++ toString (40123 : Nat) ++
        "-" ++ specHexBytes [192, 168, 1, 20] ++ "-" ++ toString (9999 : Nat) ++
        (if true then "-" ++ toString (7 : Int) else "") :=
  uri_udp_canonicalise_format _ _ true 7 (Or.inl ⟨rfl, rfl⟩) (Or.inl ⟨rfl, rfl⟩)

/-- Claim C10: `aeron_tokenise` returns `-EINVAL` for a `NULL` input, `0` for
an empty string, and `-ERANGE` as soon as the token count would exceed
`max_tokens`; otherwise it replaces every delimiter byte with `NUL` and
returns the number of non-empty delimiter-separated tokens, storing pointers
to them (here: their indices) in the `tokens` array in reverse order of their
occurrence in the input. The hypotheses are the C-string invariants: no `NUL`
byte inside the string, and a length within `INT32_MAX`. -/
theorem tokenise_spec (delim : Char) (maxTokens : Int) (l : List Char)
    (hnul : nulChar ∉ l) (hlen : (l.length : Int) ≤ int32Max) :
    aeron_tokenise none delim maxTokens = (-EINVAL, [], []) ∧
    aeron_tokenise (some []) delim maxTokens = (0, [], []) ∧
    (maxTokens < ((tokenStarts delim l).length : Int) →
      1 ≤ (tokenStarts delim l).length →
      (aeron_tokenise (some l) delim maxTokens).1 = -ERANGE) ∧
    (((tokenStarts delim l).length : Int) ≤ maxTokens →
      aeron_tokenise (some l) delim maxTokens =
        (((tokenStarts delim l).length : Int), replaceDelims delim l,
          (tokenStarts delim l).reverse)) := by
  refine ⟨rfl, rfl, ?_, ?_⟩
  · intro hgt hpos
    rcases l with _ | ⟨x, xs⟩
    · simp [tokenStarts] at hpos
    · have hS : startsFrom delim (x :: xs) ((x :: xs).reverse.length + 1) = [] :=
        startsFrom_of_le _ _ _ (by simp)
      have h := tokeniseLoop_erange delim maxTokens (x :: xs) hnul hgt hpos
        (x :: xs).reverse [] (by simp) (by simp) (by rw [hS]; simp)
      rw [hS] at h
      rw [aeron_tokenise, if_neg (by omega), if_neg (by simp)]
      simpa [replaceDelims] using h
  · intro hleq
    rcases l with _ | ⟨x, xs⟩
    · simp [aeron_tokenise, tokenStarts, replaceDelims, int32Max]
    · have hS : startsFrom delim (x :: xs) ((x :: xs).reverse.length + 1) = [] :=
        startsFrom_of_le _ _ _ (by simp)
      have h := tokeniseLoop_success delim maxTokens (x :: xs) hnul hleq
        (x :: xs).reverse [] (by simp) (by simp)
      rw [hS] at h
      rw [aeron_tokenise, if_neg (by omega), if_neg (by simp)]
      simpa [replaceDelims] using h

/-- Witness for C10: tokenising `"a,b,,c"` on `,` with room for 10 tokens. -/
theorem tokenise_spec_witness :
    aeron_tokenise none ',' 10 = (-EINVAL, [], []) ∧
    aeron_tokenise (some []) ',' 10 = (0, [], []) ∧
    ((10 : Int) < ((tokenStarts ',' "a,b,,c".toList).length : Int) →
      1 ≤ (tokenStarts ',' "a,b,,c".toList).length →
      (aeron_tokenise (some "a,b,,c".toList) ',' 10).1 = -ERANGE) ∧
    (((tokenStarts ',' "a,b,,c".toList).length : Int) ≤ 10 →
      aeron_tokenise (some "a,b,,c".toList) ',' 10 =
        (((tokenStarts ',' "a,b,,c".toList).length : Int),
          replaceDelims ',' "a,b,,c".toList,
          (tokenStarts ',' "a,b,,c".toList).reverse)) :=
  tokenise_spec ',' 10 "a,b,,c".toList (by decide) (by decide)

end Aeron
